import Mathlib

/-!
Shallow embedding of the configuration-resolution core of `wizard.js`
(project-setup-wizard).  Pure fragments of the script (CLI parsing, answer
normalization, profile resolution, preset/port derivation, devbox package
selection, slug computation, docker/compose content templates) are translated
into executable Lean definitions; filesystem writes are dropped and each
generated artifact is represented by the value/string the script would write.
JavaScript strings are modelled by Lean `String` (ASCII case conversion),
`undefined`/`null` fields by `Option`, and JS string truthiness by an
emptiness test.
-/

namespace Wizard

/-
Character-list implementations of the JS string primitives the script uses.
Core `String.trim`/`toLower`/`split`/`startsWith` are byte-position based and
do not reduce in the kernel, so the same operations are defined here directly
on `String.data`; for ASCII input (all data handled by the wizard) they agree
with the JS semantics.
-/

/-- JS `haystack.includes(needle)` (substring test). -/
def strContains (haystack needle : String) : Bool :=
  decide (needle.data <:+: haystack.data)

/-- JS `s.toLowerCase()` (ASCII). -/
def jsToLower (s : String) : String :=
  String.mk (s.data.map Char.toLower)

/-- JS `s.trim()`: strip whitespace from both ends. -/
def jsTrim (s : String) : String :=
  String.mk ((((s.data.dropWhile Char.isWhitespace).reverse.dropWhile Char.isWhitespace).reverse))

/-- JS `s.startsWith(p)`. -/
def jsStartsWith (s p : String) : Bool :=
  p.data.isPrefixOf s.data

/-- JS `s.slice(n)` for a nonnegative `n` (used as `arg.slice(2)`). -/
def jsDrop (s : String) (n : Nat) : String :=
  String.mk (s.data.drop n)

/-- Helper for `jsSplitChar`: split a character list at every separator. -/
def splitCharList (sep : Char) : List Char → List Char → List (List Char)
  | [], acc => [acc.reverse]
  | c :: cs, acc =>
    if c = sep then acc.reverse :: splitCharList sep cs []
    else splitCharList sep cs (c :: acc)

/-- JS `s.split(sep)` for a single-character separator. -/
def jsSplitChar (s : String) (sep : Char) : List String :=
  (splitCharList sep s.data []).map String.mk

/-- JS `parseInt(s, 10)`: skip leading whitespace, optional sign, then a run
of decimal digits; `none` models `NaN` (no digits found).  Trailing garbage is
ignored, as in JS. -/
def jsParseInt (s : String) : Option Int :=
  let cs := s.data.dropWhile (fun c => c.isWhitespace)
  let signAndRest : Int × List Char :=
    match cs with
    | '-' :: t => (-1, t)
    | '+' :: t => (1, t)
    | _ => (1, cs)
  let digits := signAndRest.2.takeWhile (fun c => c.isDigit)
  if digits.isEmpty then none
  else some (signAndRest.1 * (digits.foldl (fun n c => n * 10 + (c.toNat - 48) : Nat → Char → Nat) 0 : Nat))

/-- JS truthiness of an optional string (`undefined` and `""` are falsy). -/
def jsTruthy : Option String → Bool
  | some v => v ≠ ""
  | none => false

/-- JS `opt || dflt` for an optional string field: the default replaces both
`undefined` and the empty string. -/
def jsOrElse (o : Option String) (dflt : String) : String :=
  match o with
  | some v => if v = "" then dflt else v
  | none => dflt

/-- `ask` (wizard.js lines 37-57): the raw reply is trimmed; an empty reply
resolves to the default when a (truthy) default was supplied.  The default
value `""` models a falsy JS default (`null` or the empty string). -/
def ask (rawAnswer : String) (defaultValue : String) : String :=
  let trimmedAnswer := jsTrim rawAnswer
  if trimmedAnswer = "" ∧ defaultValue ≠ "" then defaultValue else trimmedAnswer

/-- `askYesNo` (wizard.js lines 59-63): `ask` is called without a default, so
the reply is just trimmed; `yes`/`y` (case-insensitive) or an empty reply with
default `"yes"` counts as yes. -/
def askYesNo (rawAnswer : String) (defaultAnswer : String) : Bool :=
  let answer := ask rawAnswer ("")
  jsToLower answer = "yes" ∨ jsToLower answer = "y" ∨ (answer = "" ∧ defaultAnswer = "yes")

/-- `normalizeOptionAnswer` (wizard.js lines 65-71): a reply parsing as an
integer `n` with `1 ≤ n ≤ options.length` selects `options[n-1]`; anything
else is returned unchanged. -/
def normalizeOptionAnswer (answer : String) (options : List String) : String :=
  match jsParseInt answer with
  | none => answer
  | some n =>
    let index := n - 1
    if 0 ≤ index ∧ index < options.length then options.getD index.toNat ("") else answer

/-- `PRESET_FLAG_MAP` keys in declaration order (wizard.js lines 8-16). -/
def presetFlagNames : List String :=
  ["angular", "react", "vue", "node", "typescript", "java", "dotnet"]

/-- `PRESET_FLAG_MAP[flag].nxPreset` (wizard.js lines 8-16). -/
def presetFlagNxPreset (flag : String) : String :=
  if flag = "angular" then "Angular"
  else if flag = "react" then "React"
  else if flag = "vue" then "Vue"
  else if flag = "node" then "Node"
  else if flag = "typescript" then "TypeScript"
  else if flag = "java" then "Java"
  else ".NET"

/-- `PRESET_FLAG_MAP[flag].language` (wizard.js lines 8-16). -/
def presetFlagLanguage (flag : String) : String :=
  if flag = "java" then "Java (Spring Boot/Quarkus)"
  else if flag = "dotnet" then ".NET"
  else "JavaScript/TypeScript"

/-- `PROJECT_TYPE_FLAG_MAP` keys in declaration order (wizard.js lines 18-25). -/
def projectTypeFlagNames : List String :=
  ["web-app", "cli-tool", "library", "api-service", "mobile-app", "other"]

/-- `PROJECT_TYPE_FLAG_MAP[flag]` (wizard.js lines 18-25). -/
def projectTypeFlagLabel (flag : String) : String :=
  if flag = "web-app" then "Web app"
  else if flag = "cli-tool" then "CLI tool"
  else if flag = "library" then "Library"
  else if flag = "api-service" then "API service"
  else if flag = "mobile-app" then "Mobile app"
  else "Other"

/-- The resolved CLI options record returned by `parseCliOptions`
(wizard.js lines 219-232). -/
structure CliConfig where
  showHelp : Bool
  nonInteractive : Bool
  nxPreset : Option String
  language : Option String
  projectType : Option String
  projectName : Option String
  dockerOverride : Option Bool
  dbOverride : Option Bool
  githubUser : Option String
  javaFramework : Option String
deriving DecidableEq, Repr

/-- Mutable parser state accumulated over the argument loop of
`parseCliOptions` (wizard.js lines 89-199). -/
structure ParseState where
  flags : List String
  projectName : Option String
  dockerOverride : Option Bool
  dbOverride : Option Bool
  githubUser : Option String
  javaFramework : Option String
deriving DecidableEq, Repr

def ParseState.initial : ParseState :=
  { flags := [], projectName := none, dockerOverride := none, dbOverride := none,
    githubUser := none, javaFramework := none }

/-- `flags.add(key)` (wizard.js lines 100, 198). -/
def ParseState.addFlag (st : ParseState) (k : String) : ParseState :=
  { st with flags := st.flags ++ [k] }

/-- `projectName = value.trim()` (wizard.js line 123). -/
def ParseState.setProjectName (st : ParseState) (v : String) : ParseState :=
  { st with projectName := some v }

/-- `githubUser = value.trim()` (wizard.js line 140). -/
def ParseState.setGithubUser (st : ParseState) (v : String) : ParseState :=
  { st with githubUser := some v }

/-- `dockerOverride = b` (wizard.js lines 149, 158). -/
def ParseState.setDockerOverride (st : ParseState) (b : Bool) : ParseState :=
  { st with dockerOverride := some b }

/-- `dbOverride = b` (wizard.js lines 167, 176). -/
def ParseState.setDbOverride (st : ParseState) (b : Bool) : ParseState :=
  { st with dbOverride := some b }

/-- `javaFramework = s` (wizard.js lines 185, 194). -/
def ParseState.setJavaFramework (st : ParseState) (s : String) : ParseState :=
  { st with javaFramework := some s }

/-- Key part of `arg.slice(2).split('=')`, lower-cased (wizard.js lines 107-108). -/
def argKey (arg : String) : String :=
  jsToLower ((jsSplitChar (jsDrop arg 2) '=').headD (""))

/-- Value part of `arg.slice(2).split('=')` (wizard.js line 107); `none` when
the argument has no `=`. -/
def argRawValue (arg : String) : Option String :=
  (jsSplitChar (jsDrop arg 2) '=')[1]?

/-- The truthy inline value of an argument (`--name=value`); JS treats an
empty `=` value as missing. -/
def argValue (arg : String) : Option String :=
  match argRawValue arg with
  | some v => if v = "" then none else some v
  | none => none

/-- One iteration of the argument loop of `parseCliOptions`
(wizard.js lines 97-199), on the current argument and the following one.
`process.exit(1)` after a `console.error` is modelled as `Except.error` with
the reported message.  The returned Boolean records whether the following
argument was consumed as the value of `--name`/`--user` (JS `i += 1`): that
happens exactly when the flag has no inline `=value` and the next argument
exists, is nonempty and does not start with `-`. -/
def parseStep (st : ParseState) (arg : String) (next : Option String) :
    Except String (ParseState × Bool) :=
  if arg = "-h" then Except.ok (st.addFlag ("h"), false)
  else if ¬ (jsStartsWith arg ("--")) then Except.ok (st, false)
  else
    let key := argKey arg
    if key = "name" ∨ key = "project-name" then
      match argValue arg with
      | some v => Except.ok (st.setProjectName (jsTrim v), false)
      | none =>
        match next with
        | some nextArg =>
          if nextArg ≠ "" ∧ ¬ (jsStartsWith nextArg ("-")) then
            Except.ok (st.setProjectName (jsTrim nextArg), true)
          else Except.error ("Please provide a project name after --name.")
        | none => Except.error ("Please provide a project name after --name.")
    else if key = "user" ∨ key = "github-user" then
      match argValue arg with
      | some v => Except.ok (st.setGithubUser (jsTrim v), false)
      | none =>
        match next with
        | some nextArg =>
          if nextArg ≠ "" ∧ ¬ (jsStartsWith nextArg ("-")) then
            Except.ok (st.setGithubUser (jsTrim nextArg), true)
          else Except.error ("Please provide a GitHub username after --user.")
        | none => Except.error ("Please provide a GitHub username after --user.")
    else if key = "docker" then
      if st.dockerOverride = some false then
        Except.error ("Use only one of --docker or --no-docker.")
      else Except.ok (st.setDockerOverride true, false)
    else if key = "no-docker" then
      if st.dockerOverride = some true then
        Except.error ("Use only one of --docker or --no-docker.")
      else Except.ok (st.setDockerOverride false, false)
    else if key = "db" then
      if st.dbOverride = some false then
        Except.error ("Use only one of --db or --no-db.")
      else Except.ok (st.setDbOverride true, false)
    else if key = "no-db" then
      if st.dbOverride = some true then
        Except.error ("Use only one of --db or --no-db.")
      else Except.ok (st.setDbOverride false, false)
    else if key = "quarkus" then
      if st.javaFramework.isSome ∧ st.javaFramework ≠ some ("quarkus") then
        Except.error ("Use only one of --quarkus or --spring-boot.")
      else Except.ok (st.setJavaFramework ("quarkus"), false)
    else if key = "spring-boot" then
      if st.javaFramework.isSome ∧ st.javaFramework ≠ some ("spring-boot") then
        Except.error ("Use only one of --quarkus or --spring-boot.")
      else Except.ok (st.setJavaFramework ("spring-boot"), false)
    else Except.ok (st.addFlag key, false)

/-- The argument loop of `parseCliOptions` (wizard.js lines 97-199): fold
`parseStep` over the arguments, skipping the following argument when the
step consumed it as a flag value.  (A step can only report a consumed value
when a following argument exists, so the `(true, [])` branch is
unreachable.) -/
def parseArgs (st : ParseState) : List String → Except String ParseState
  | [] => Except.ok st
  | arg :: rest =>
    match parseStep st arg rest.head? with
    | Except.error e => Except.error e
    | Except.ok (st2, false) => parseArgs st2 rest
    | Except.ok (st2, true) =>
      match rest with
      | [] => parseArgs st2 []
      | _ :: rest2 => parseArgs st2 rest2

/-- The post-loop validation and record construction of `parseCliOptions`
(wizard.js lines 201-232). -/
def finalizeCliOptions (st : ParseState) : Except String CliConfig :=
  let presetFlags := presetFlagNames.filter (fun f => st.flags.contains f)
  let projectTypeFlags := projectTypeFlagNames.filter (fun f => st.flags.contains f)
  if presetFlags.length > 1 then
    Except.error ("Please provide only one preset flag (e.g., --angular).")
  else if st.javaFramework.isSome ∧ presetFlags.length = 1 ∧ presetFlags.headD ("") ≠ "java" then
    Except.error ("Java framework flags (--spring-boot/--quarkus) can only be used with --java or alone.")
  else if projectTypeFlags.length > 1 then
    Except.error ("Please provide only one project type flag (e.g., --web-app).")
  else
    Except.ok
      { showHelp := st.flags.contains ("help") ∨ st.flags.contains ("h")
        nonInteractive := presetFlags.length > 0 ∨ projectTypeFlags.length > 0
          ∨ st.projectName.isSome ∨ st.dockerOverride.isSome ∨ st.dbOverride.isSome
          ∨ st.githubUser.isSome ∨ st.javaFramework.isSome
        nxPreset := if presetFlags.length > 0 then some (presetFlagNxPreset (presetFlags.headD (""))) else none
        language := if presetFlags.length > 0 then some (presetFlagLanguage (presetFlags.headD (""))) else none
        projectType := if projectTypeFlags.length > 0 then some (projectTypeFlagLabel (projectTypeFlags.headD (""))) else none
        projectName := st.projectName
        dockerOverride := st.dockerOverride
        dbOverride := st.dbOverride
        githubUser := st.githubUser
        javaFramework := st.javaFramework }

/-- `parseCliOptions` (wizard.js lines 89-233): run the argument loop from the
empty state, then validate and build the config. -/
def parseCliOptions (args : List String) : Except String CliConfig :=
  match parseArgs ParseState.initial args with
  | Except.ok st => finalizeCliOptions st
  | Except.error e => Except.error e

/-- The wizard's accumulated answer record (`this.answers`).  Fields the
script may leave `undefined` are `Option`s. -/
structure Answers where
  projectType : String
  language : String
  javaFramework : Option String
  projectDescription : String
  useNx : Bool
  specificDependencies : String
  enableAutomation : Option Bool
  nxPreset : Option String
  useGeminiCLI : Bool
  useClaudeCode : Bool
  useCodexCLI : Bool
  expectedCommands : String
  generateScripts : Bool
  includeDocs : Bool
  deploymentTarget : String
  createDockerfile : Bool
  baseImage : Option String
  includeDbService : Bool
  repoName : String
  initGit : Bool
  generateReadme : Bool
  githubUser : Option String
  setupVersioning : Bool
deriving DecidableEq, Repr

/-- `isJavaLanguage` (wizard.js lines 625-632) on the language answer. -/
def isJavaLanguageStr (language : String) : Bool :=
  let raw := jsTrim (jsToLower language)
  raw = "java" ∨ jsStartsWith raw ("java ") ∨ jsStartsWith raw ("java(")
    ∨ strContains raw ("spring") ∨ strContains raw ("quarkus")

/-- The derived boolean view of `getLanguageProfile` (wizard.js lines 77-87). -/
structure LanguageProfile where
  language : String
  isJsTs : Bool
  isPython : Bool
  isRust : Bool
  isJava : Bool
  isDotnet : Bool
deriving DecidableEq, Repr

/-- `getLanguageProfile` (wizard.js lines 77-87) on the language answer. -/
def getLanguageProfileStr (language : String) : LanguageProfile :=
  { language := language
    isJsTs := strContains language ("JavaScript") ∨ strContains language ("TypeScript")
    isPython := strContains language ("Python")
    isRust := strContains language ("Rust")
    isJava := isJavaLanguageStr language
    isDotnet := strContains language (".NET") }

/-- `jsBasedLanguages` of `shouldRecommendNx` (wizard.js line 590). -/
def jsBasedLanguages : List String := ["JavaScript/TypeScript", "Web app"]

/-- `javaLanguages` of `shouldRecommendNx` (wizard.js line 591). -/
def javaLanguages : List String := ["Java (Spring Boot/Quarkus)"]

/-- `shouldRecommendNx` (wizard.js lines 589-596) on the language and
project-type answers. -/
def shouldRecommendNxCore (language projectType : String) : Bool :=
  jsBasedLanguages.any (fun lang => strContains language lang ∨ strContains projectType lang)
    ∨ javaLanguages.any (fun lang => strContains language lang)

/-- `getDefaultNxPreset` (wizard.js lines 598-610) on the language answer. -/
def getDefaultNxPresetStr (language : String) : String :=
  if strContains language (".NET") then ".NET"
  else if strContains language ("JavaScript") ∨ strContains language ("TypeScript") then "TypeScript"
  else if strContains language ("Java (") then "Java"
  else "Node"

/-- `getNormalizedNxPreset` (wizard.js lines 649-673) on the (possibly unset)
`nxPreset` answer. -/
def getNormalizedNxPresetStr (nxPreset : Option String) : String :=
  let raw := jsToLower (nxPreset.getD (""))
  if strContains raw ("angular") then "angular"
  else if strContains raw ("react") then "react"
  else if strContains raw ("vue") then "vue"
  else if strContains raw ("node") then "node"
  else if strContains raw (".net") ∨ strContains raw ("dotnet") then "dotnet"
  else if strContains raw ("typescript") ∨ strContains raw ("javascript") then "typescript"
  else if raw = "java" ∨ jsStartsWith raw ("java ") ∨ jsStartsWith raw ("java(") then "java"
  else "typescript"

/-- `normalizeJavaFramework` (wizard.js lines 634-643); JS `null` is `none`. -/
def normalizeJavaFramework (choice : String) : Option String :=
  let raw := jsToLower choice
  if strContains raw ("spring") then some ("spring-boot")
  else if strContains raw ("quarkus") then some ("quarkus")
  else none

/-- `shouldOfferDatabaseService` (wizard.js lines 612-623) on the four answer
fields it reads. -/
def shouldOfferDbCore (useNx : Bool) (nxPreset : Option String) (language projectType : String) : Bool :=
  if useNx then
    ["node", "java", "dotnet"].contains (getNormalizedNxPresetStr nxPreset)
  else
    let profile := getLanguageProfileStr language
    if profile.isJava ∨ profile.isDotnet then true
    else profile.isJsTs ∧ strContains (jsToLower projectType) ("api")

def Answers.isJavaLanguage (a : Answers) : Bool := isJavaLanguageStr a.language

def Answers.getLanguageProfile (a : Answers) : LanguageProfile := getLanguageProfileStr a.language

def Answers.getNormalizedNxPreset (a : Answers) : String := getNormalizedNxPresetStr a.nxPreset

/-- `getJavaFramework` (wizard.js lines 645-647). -/
def Answers.getJavaFramework (a : Answers) : Option String :=
  normalizeJavaFramework (a.javaFramework.getD (""))

def Answers.shouldOfferDatabaseService (a : Answers) : Bool :=
  shouldOfferDbCore a.useNx a.nxPreset a.language a.projectType

/-- `applyNonInteractiveDefaults` (wizard.js lines 235-309): the fixed
defaults record, overridden by the parsed CLI options, then the Nx/database
derivations, in the source's mutation order. -/
def applyNonInteractiveDefaults (cfg : CliConfig) : Answers :=
  let projectType := jsOrElse cfg.projectType ("Web app")
  let language0 := jsOrElse cfg.language ("JavaScript/TypeScript")
  let javaFramework := if jsTruthy cfg.javaFramework then cfg.javaFramework else none
  let language :=
    if jsTruthy cfg.javaFramework then
      if language0 = "" ∨ ¬ isJavaLanguageStr language0 then "Java (Spring Boot/Quarkus)"
      else language0
    else language0
  let repoName := jsOrElse cfg.projectName ("my-project")
  let githubUser := if jsTruthy cfg.githubUser then cfg.githubUser else none
  let createDockerfile := cfg.dockerOverride.getD true
  let shouldUseNx := shouldRecommendNxCore language projectType
  let useNx := if jsTruthy cfg.nxPreset then true else shouldUseNx
  let enableAutomation := if jsTruthy cfg.nxPreset then true else shouldUseNx
  let nxPreset :=
    if jsTruthy cfg.nxPreset then cfg.nxPreset
    else if shouldUseNx then some (getDefaultNxPresetStr language)
    else none
  let javaDbDefault := isJavaLanguageStr language && createDockerfile
  let includeDbService :=
    if createDockerfile then
      match cfg.dbOverride with
      | some dbOverride =>
        let canIncludeDb := shouldOfferDbCore useNx nxPreset language projectType
        if dbOverride && !canIncludeDb then javaDbDefault else dbOverride
      | none => javaDbDefault
    else javaDbDefault
  { projectType := projectType
    language := language
    javaFramework := javaFramework
    projectDescription := "A new development project"
    useNx := useNx
    specificDependencies := ""
    enableAutomation := some enableAutomation
    nxPreset := nxPreset
    useGeminiCLI := false
    useClaudeCode := false
    useCodexCLI := false
    expectedCommands := "scaffold,build,test"
    generateScripts := true
    includeDocs := true
    deploymentTarget := "Docker container"
    createDockerfile := createDockerfile
    baseImage := some ("Alpine")
    includeDbService := includeDbService
    repoName := repoName
    initGit := true
    generateReadme := true
    githubUser := githubUser
    setupVersioning := true }

/-- Fixed option list of the project-type prompt (wizard.js lines 363-370). -/
def projectTypes : List String :=
  ["Web app", "CLI tool", "Library", "API service", "Mobile app", "Other"]

/-- Fixed option list of the language prompt (wizard.js lines 381-388). -/
def languages : List String :=
  ["JavaScript/TypeScript", "Java (Spring Boot/Quarkus)", "Rust", "Python", ".NET", "Other"]

/-- Fixed option list of the Java-framework prompt (wizard.js lines 399-403). -/
def javaFrameworkOptions : List String :=
  ["None (basic Java)", "Spring Boot", "Quarkus"]

/-- Fixed option list of the Nx-preset prompt (wizard.js lines 443-451). -/
def nxPresetOptions : List String :=
  ["TypeScript", "Angular", "React", "Vue", "Node", "Java", ".NET"]

/-- Fixed option list of the assistant prompt (wizard.js lines 466-471). -/
def assistantOptions : List String :=
  ["Gemini CLI", "Claude Code", "Codex CLI", "None"]

/-- Fixed option list of the deployment prompt (wizard.js lines 512-517). -/
def deploymentTargets : List String :=
  ["Docker container", "Kubernetes", "Serverless/cloud platform", "Other"]

/-- Fixed option list of the base-image prompt (wizard.js line 533). -/
def baseImages : List String := ["Alpine", "Ubuntu", "Debian", "Other"]

/-- All fixed option lists the wizard ever passes to `normalizeOptionAnswer`
(wizard.js lines 363-533). -/
def wizardOptionLists : List (List String) :=
  [projectTypes, languages, javaFrameworkOptions, nxPresetOptions,
   assistantOptions, deploymentTargets, baseImages]

/-- One raw reply per interactive prompt of `run` (wizard.js lines 359-583),
in prompt order.  Replies to prompts that are skipped on a given path are
simply unused. -/
structure PromptInputs where
  projectTypeAnswer : String
  languageAnswer : String
  javaFrameworkAnswer : String
  projectDescriptionAnswer : String
  useNxAnswer : String
  specificDependenciesAnswer : String
  enableAutomationAnswer : String
  nxPresetAnswer : String
  assistantAnswer : String
  expectedCommandsAnswer : String
  generateScriptsAnswer : String
  includeDocsAnswer : String
  deploymentAnswer : String
  createDockerfileAnswer : String
  baseImageAnswer : String
  includeDbAnswer : String
  repoNameAnswer : String
  initGitAnswer : String
  generateReadmeAnswer : String
  githubUserAnswer : String
  setupVersioningAnswer : String
deriving DecidableEq, Repr

/-- The prompt inputs of a user who presses enter at every prompt. -/
def PromptInputs.allEmpty : PromptInputs :=
  { projectTypeAnswer := "", languageAnswer := "", javaFrameworkAnswer := "",
    projectDescriptionAnswer := "", useNxAnswer := "", specificDependenciesAnswer := "",
    enableAutomationAnswer := "", nxPresetAnswer := "", assistantAnswer := "",
    expectedCommandsAnswer := "", generateScriptsAnswer := "", includeDocsAnswer := "",
    deploymentAnswer := "", createDockerfileAnswer := "", baseImageAnswer := "",
    includeDbAnswer := "", repoNameAnswer := "", initGitAnswer := "",
    generateReadmeAnswer := "", githubUserAnswer := "", setupVersioningAnswer := "" }

/-- The interactive branch of `run` (wizard.js lines 359-583): the sequence
of prompts, normalizations and conditional sections, in source order, as a
function from the raw replies to the final answer record. -/
def runInteractive (inp : PromptInputs) : Answers :=
  let projectType := normalizeOptionAnswer (ask inp.projectTypeAnswer ("Web app")) projectTypes
  let language := normalizeOptionAnswer (ask inp.languageAnswer ("JavaScript/TypeScript")) languages
  let javaFramework :=
    if isJavaLanguageStr language then
      normalizeJavaFramework
        (normalizeOptionAnswer (ask inp.javaFrameworkAnswer ("None (basic Java)")) javaFrameworkOptions)
    else none
  let projectDescription := ask inp.projectDescriptionAnswer ("A new development project")
  let shouldUseNx := shouldRecommendNxCore language projectType
  let useNx := askYesNo inp.useNxAnswer (if shouldUseNx then "yes" else "no")
  let specificDependencies := ask inp.specificDependenciesAnswer ("")
  let enableAutomation := if useNx then some (askYesNo inp.enableAutomationAnswer ("yes")) else none
  let nxPreset :=
    if useNx then
      some (normalizeOptionAnswer (ask inp.nxPresetAnswer (getDefaultNxPresetStr language)) nxPresetOptions)
    else none
  let assistantChoice := normalizeOptionAnswer (ask inp.assistantAnswer ("None")) assistantOptions
  let assistantChoiceLower := jsToLower assistantChoice
  let useGeminiCLI := strContains assistantChoiceLower ("gemini")
  let useClaudeCode := strContains assistantChoiceLower ("claude")
  let useCodexCLI := strContains assistantChoiceLower ("codex")
  let expectedCommands := ask inp.expectedCommandsAnswer ("scaffold,build,test")
  let generateScripts := askYesNo inp.generateScriptsAnswer ("yes")
  let includeDocs := askYesNo inp.includeDocsAnswer ("yes")
  let deploymentTarget := normalizeOptionAnswer (ask inp.deploymentAnswer ("Docker container")) deploymentTargets
  let createDockerfile := askYesNo inp.createDockerfileAnswer ("yes")
  let baseImage :=
    if createDockerfile then
      some (normalizeOptionAnswer (ask inp.baseImageAnswer ("Alpine")) baseImages)
    else none
  let includeDbService :=
    if createDockerfile then
      if shouldOfferDbCore useNx nxPreset language projectType then
        askYesNo inp.includeDbAnswer (if isJavaLanguageStr language then "yes" else "no")
      else false
    else false
  let repoName := ask inp.repoNameAnswer ("my-project")
  let initGit := askYesNo inp.initGitAnswer ("yes")
  let generateReadme := askYesNo inp.generateReadmeAnswer ("yes")
  let githubUser := some (ask inp.githubUserAnswer (""))
  let setupVersioning := askYesNo inp.setupVersioningAnswer ("yes")
  { projectType := projectType
    language := language
    javaFramework := javaFramework
    projectDescription := projectDescription
    useNx := useNx
    specificDependencies := specificDependencies
    enableAutomation := enableAutomation
    nxPreset := nxPreset
    useGeminiCLI := useGeminiCLI
    useClaudeCode := useClaudeCode
    useCodexCLI := useCodexCLI
    expectedCommands := expectedCommands
    generateScripts := generateScripts
    includeDocs := includeDocs
    deploymentTarget := deploymentTarget
    createDockerfile := createDockerfile
    baseImage := baseImage
    includeDbService := includeDbService
    repoName := repoName
    initGit := initGit
    generateReadme := generateReadme
    githubUser := githubUser
    setupVersioning := setupVersioning }

/-- The all-`null` CLI options record (no flag given). -/
def CliConfig.empty : CliConfig :=
  { showHelp := false, nonInteractive := false, nxPreset := none, language := none,
    projectType := none, projectName := none, dockerOverride := none, dbOverride := none,
    githubUser := none, javaFramework := none }

/-- The `pythonToSystem` alias table of `getDevboxPackages`
(wizard.js lines 952-959). -/
def pythonToSystem (key : String) : Option String :=
  if key = "ffmpeg-python" then some ("ffmpeg")
  else if key = "opencv-python" then some ("opencv")
  else if key = "pillow" then some ("libjpeg")
  else if key = "numpy" then some ("openblas")
  else if key = "scipy" then some ("openblas")
  else if key = "whisper" then some ("openai-whisper")
  else none

/-- The `allowedSystemPackages` allow-list of `getDevboxPackages`
(wizard.js lines 961-980). -/
def allowedSystemPackages : List String :=
  ["ffmpeg", "yt-dlp", "openai-whisper", "opencv", "libjpeg", "openblas",
   "docker", "nodejs", "pnpm", "python3", "rustc", "cargo", "jdk", "maven",
   "dotnet-sdk", "git", "curl", "wget"]

/-- The system packages pushed for one free-text dependency
(wizard.js lines 982-993): the alias image when it is allowed, else the
lower-cased name when it is allowed, else nothing. -/
def depSystemPackages (dep : String) : List String :=
  let key := jsToLower dep
  match pythonToSystem key with
  | some mapped =>
    if allowedSystemPackages.contains mapped then [mapped]
    else if allowedSystemPackages.contains key then [key]
    else []
  | none =>
    if allowedSystemPackages.contains key then [key]
    else []

/-- `[...new Set(packages)]` (wizard.js line 996): deduplication keeping the
first occurrence of each element, as a JS `Set` does. -/
def dedupFirst : List String → List String
  | [] => []
  | a :: as => a :: dedupFirst (as.filter (fun x => x ≠ a))
termination_by l => l.length
decreasing_by
  simp only [List.length_cons]
  exact Nat.lt_succ_of_le (List.length_filter_le _ _)

/-- `getDevboxPackages` (wizard.js lines 907-997): base tools, then
language/toggle packages, then the allow-listed free-text dependencies,
deduplicated. -/
def getDevboxPackages (a : Answers) : List String :=
  let profile := getLanguageProfileStr a.language
  let packages :=
    ["git", "curl", "wget"]
    ++ (if profile.isJsTs then ["nodejs", "pnpm"] else [])
    ++ (if profile.isJava then ["jdk", "maven"] else [])
    ++ (if profile.isRust then ["rustc", "cargo"] else [])
    ++ (if profile.isPython then ["python3"] else [])
    ++ (if profile.isDotnet then ["dotnet-sdk"] else [])
    ++ (if a.createDockerfile then ["docker"] else [])
    ++ (if a.useNx then ["nodejs", "pnpm"] else [])
    ++ (if a.useGeminiCLI then ["nodejs"] else [])
    ++ (if a.useClaudeCode then ["nodejs"] else [])
    ++ (if a.useCodexCLI then ["nodejs"] else [])
    ++ (if a.specificDependencies ≠ "" then
          (((jsSplitChar a.specificDependencies ',').map jsTrim).filter
              (fun dep => dep.length > 0)).flatMap depSystemPackages
        else [])
  dedupFirst packages

/-- The characters the slug regex `[^a-z0-9-_]` keeps (wizard.js line 781):
`a`-`z` (codes 97-122), `0`-`9` (codes 48-57), hyphen and underscore. -/
def allowedSlugChar (c : Char) : Bool :=
  (97 ≤ c.toNat ∧ c.toNat ≤ 122) ∨ (48 ≤ c.toNat ∧ c.toNat ≤ 57) ∨ c = '-' ∨ c = '_'

/-- The first replace of the slug pipeline (wizard.js line 781): each maximal
run of disallowed characters becomes a single hyphen. -/
def sanitizeRuns : List Char → List Char
  | [] => []
  | c :: cs =>
    if allowedSlugChar c then c :: sanitizeRuns cs
    else '-' :: sanitizeRuns (cs.dropWhile (fun x => ¬ allowedSlugChar x))
termination_by l => l.length
decreasing_by
  · simp only [List.length_cons]; exact Nat.lt_succ_self _
  · simp only [List.length_cons]
    exact Nat.lt_succ_of_le ((List.dropWhile_sublist _).length_le)

/-- The second replace of the slug pipeline (wizard.js line 782): strip
leading and trailing hyphen runs. -/
def trimHyphens (l : List Char) : List Char :=
  (((l.dropWhile (fun c => c = '-')).reverse.dropWhile (fun c => c = '-')).reverse)

/-- The third replace of the slug pipeline (wizard.js line 783): collapse
hyphen runs to a single hyphen. -/
def collapseHyphens : List Char → List Char
  | [] => []
  | c :: cs =>
    if c = '-' then '-' :: collapseHyphens (cs.dropWhile (fun x => x = '-'))
    else c :: collapseHyphens cs
termination_by l => l.length
decreasing_by
  · simp only [List.length_cons]
    exact Nat.lt_succ_of_le ((List.dropWhile_sublist _).length_le)
  · simp only [List.length_cons]; exact Nat.lt_succ_self _

/-- The sanitize-trim-collapse pipeline of `getProjectSlug`
(wizard.js lines 780-783) on the lower-cased name. -/
def slugPipeline (raw : String) : List Char :=
  collapseHyphens (trimHyphens (sanitizeRuns (jsToLower raw).data))

/-- `getProjectSlug` (wizard.js lines 778-785) as a function of the
repository-name answer (`this.answers.repoName || 'my-project'`). -/
def getProjectSlug (repoName : String) : String :=
  let raw := if repoName = "" then "my-project" else repoName
  let slug := String.mk (slugPipeline raw)
  if slug = "" then "app" else slug

def Answers.getProjectSlug (a : Answers) : String := Wizard.getProjectSlug a.repoName

/-- JS `part.charAt(0).toUpperCase() + part.slice(1)` (wizard.js line 790). -/
def capitalizeFirst (s : String) : String :=
  match s.data with
  | [] => ""
  | c :: cs => String.mk (c.toUpper :: cs)

/-- `getDotnetProjectName` (wizard.js lines 787-792). -/
def Answers.getDotnetProjectName (a : Answers) : String :=
  let slug := a.getProjectSlug
  let parts := (jsSplitChar slug '-').filter (fun p => p ≠ "")
  let name := String.join (parts.map capitalizeFirst)
  if name = "" then "App" else name

/-- `getDockerBasePort` (wizard.js lines 2975-3007): the static port table
keyed by the normalized Nx preset in workspace mode, by language profile
otherwise. -/
def getDockerBasePort (a : Answers) : Nat :=
  if a.useNx then
    let preset := getNormalizedNxPresetStr a.nxPreset
    if preset = "angular" then 4200
    else if preset = "react" then 3000
    else if preset = "vue" then 5173
    else if preset = "node" then 3000
    else if preset = "typescript" then 3000
    else if preset = "java" then 8080
    else if preset = "dotnet" then 5000
    else 3000
  else
    let profile := getLanguageProfileStr a.language
    if profile.isJava then 8080
    else if profile.isDotnet then 5000
    else if profile.isPython then 8000
    else if profile.isRust then 3000
    else if profile.isJsTs then 3000
    else 3000

/-- `getDockerPort` (wizard.js lines 2971-2973): the application port is the
base port plus one. -/
def getDockerPort (a : Answers) : Nat :=
  getDockerBasePort a + 1

/-- The port `ensureNxServePort` (wizard.js lines 1358-1407) writes into the
workspace serve target's `options.port` (line 1391): the *base* port, and only
for the presets with a dev-server serve target; `none` models the early
returns for the other presets. -/
def ensureNxServePortValue (a : Answers) : Option Nat :=
  if ["angular", "react", "vue"].contains (getNormalizedNxPresetStr a.nxPreset) then
    some (getDockerBasePort a)
  else none

/-- `getBaseDockerImage` (wizard.js lines 2870-2888). -/
def getBaseDockerImage (a : Answers) : String :=
  let profile := getLanguageProfileStr a.language
  let isAlpine := jsToLower (a.baseImage.getD ("")) = "alpine"
  if strContains a.language ("Node") ∨ profile.isJsTs then
    if isAlpine then "node:18-alpine" else "node:18"
  else if profile.isDotnet then "mcr.microsoft.com/dotnet/sdk:8.0"
  else if profile.isJava then "eclipse-temurin:25-jdk"
  else if profile.isRust then "rust:1.70"
  else if profile.isPython then
    if isAlpine then "python:3.11-alpine" else "python:3.11"
  else if isAlpine then "alpine:latest" else "ubuntu:22.04"

/-- `getDockerCopyInstructions` (wizard.js lines 2890-2913). -/
def getDockerCopyInstructions (a : Answers) : String :=
  let profile := getLanguageProfileStr a.language
  if profile.isJsTs then
    "COPY package.json pnpm-lock.yaml* ./\nRUN corepack enable\nRUN pnpm install\nCOPY . ."
  else if profile.isPython then
    let isAlpine := jsToLower (a.baseImage.getD ("")) = "alpine"
    "COPY requirements.txt ./\n"
      ++ (if a.specificDependencies ≠ "" ∧ ¬ isAlpine then
            "RUN apt-get update && apt-get install -y ffmpeg && rm -rf /var/lib/apt/lists/*\n"
          else "")
      ++ "RUN pip install -r requirements.txt\nCOPY . ."
  else if profile.isRust then
    "COPY Cargo.toml Cargo.lock ./\nRUN cargo fetch\nCOPY . .\nRUN cargo build --release"
  else if profile.isJava then
    let projectName := a.getProjectSlug
    "RUN apt-get update && apt-get install -y maven && rm -rf /var/lib/apt/lists/*\nCOPY . .\nRUN if [ -f apps/"
      ++ projectName ++ "/pom.xml ]; then mvn -q -DskipTests -f apps/"
      ++ projectName ++ "/pom.xml package; else mvn -q -DskipTests package; fi"
  else "COPY . ."

/-- `getDockerBuildInstructions` (wizard.js lines 2915-2930). -/
def getDockerBuildInstructions (a : Answers) : String :=
  let profile := getLanguageProfileStr a.language
  if profile.isJsTs then "RUN pnpm run build"
  else if profile.isPython then "# Python build completed during dependency installation"
  else if profile.isDotnet then
    let projectPath := "apps/" ++ a.getProjectSlug ++ "/" ++ a.getDotnetProjectName ++ ".csproj"
    "ENV NX_DOTNET_SKIP_MODULE_BOUNDARIES=1\nRUN apt-get update && apt-get install -y nodejs npm && rm -rf /var/lib/apt/lists/*\nRUN npm install -g pnpm\nRUN pnpm install\nRUN dotnet restore "
      ++ projectPath ++ "\nRUN dotnet build " ++ projectPath ++ " -c Release"
  else "# Build completed"

/-- `getDockerRunInstructions` (wizard.js lines 2932-2934). -/
def getDockerRunInstructions : String := "# Runtime configuration"

/-- `getDockerCmd` (wizard.js lines 2936-2969). -/
def getDockerCmd (a : Answers) : String :=
  let port := getDockerPort a
  let profile := getLanguageProfileStr a.language
  if a.useNx ∧ ["angular", "react", "vue"].contains (getNormalizedNxPresetStr a.nxPreset) then
    "[\"pnpm\", \"nx\", \"serve\", \"" ++ a.getProjectSlug
      ++ "\", \"--host\", \"0.0.0.0\", \"--port\", \"" ++ toString port ++ "\"]"
  else if strContains profile.language ("JavaScript") ∨ profile.isJsTs then
    "[\"pnpm\", \"start\"]"
  else if profile.isPython then "[\"python\", \"src/main.py\"]"
  else if profile.isJava then
    let projectName := a.getProjectSlug
    if a.getJavaFramework = some ("quarkus") then
      "[\"sh\", \"-c\", \"if [ -f apps/" ++ projectName
        ++ "/target/quarkus-app/quarkus-run.jar ]; then java -jar apps/" ++ projectName
        ++ "/target/quarkus-app/quarkus-run.jar; else java -jar target/quarkus-app/quarkus-run.jar; fi\"]"
    else
      "[\"sh\", \"-c\", \"if [ -f apps/" ++ projectName
        ++ "/target/app.jar ]; then java -jar apps/" ++ projectName
        ++ "/target/app.jar; else java -jar target/app.jar; fi\"]"
  else if profile.isDotnet then
    let projectPath := "apps/" ++ a.getProjectSlug ++ "/" ++ a.getDotnetProjectName ++ ".csproj"
    "[\"dotnet\", \"run\", \"--project\", \"" ++ projectPath
      ++ "\", \"--urls\", \"http://0.0.0.0:" ++ toString port ++ "\"]"
  else if profile.isRust then "[\"./target/release/app\"]"
  else "[\"echo\", \"Configure your startup command\"]"

/-- `buildJavaDockerfileContent` (wizard.js lines 2804-2868): the three Java
multi-stage templates, each exposing the application port. -/
def buildJavaDockerfileContent (a : Answers) : String :=
  let port := getDockerPort a
  let projectName := a.getProjectSlug
  let javaFramework := a.getJavaFramework
  if javaFramework = some ("quarkus") then
    "# Stage 1: Build\nFROM eclipse-temurin:25-jdk AS build\nWORKDIR /app\nRUN apt-get update && apt-get install -y maven && rm -rf /var/lib/apt/lists/*\nENV JAVA_TOOL_OPTIONS=\"-Dnet.bytebuddy.experimental=true\"\nCOPY . .\nRUN if [ -f apps/"
      ++ projectName ++ "/pom.xml ]; then mvn -q -DskipTests -f apps/"
      ++ projectName ++ "/pom.xml package; else mvn -q -DskipTests package; fi\nRUN if [ -d apps/"
      ++ projectName ++ "/target/quarkus-app ]; then cp -R apps/"
      ++ projectName ++ "/target/quarkus-app /app/quarkus-app; else cp -R target/quarkus-app /app/quarkus-app; fi\n\n# Stage 2: Final image\nFROM eclipse-temurin:25-jdk\nWORKDIR /app\nENV PORT="
      ++ toString port ++ "\nCOPY --from=build /app/quarkus-app /app/quarkus-app\n"
      ++ ("EXPOSE " ++ toString port)
      ++ "\nENTRYPOINT [\"java\", \"-jar\", \"/app/quarkus-app/quarkus-run.jar\"]"
  else if javaFramework = some ("spring-boot") then
    "# Stage 1: Build\nFROM eclipse-temurin:25-jdk AS build\nWORKDIR /app\nRUN apt-get update && apt-get install -y maven && rm -rf /var/lib/apt/lists/*\nCOPY . .\nRUN if [ -f apps/"
      ++ projectName ++ "/pom.xml ]; then mvn -q -DskipTests -f apps/"
      ++ projectName ++ "/pom.xml package; else mvn -q -DskipTests package; fi\nRUN if [ -f apps/"
      ++ projectName ++ "/target/app.jar ]; then cp apps/"
      ++ projectName ++ "/target/app.jar /app/app.jar; else cp target/app.jar /app/app.jar; fi\n\n# Stage 2: Final image\nFROM eclipse-temurin:25-jdk\nWORKDIR /app\nENV PORT="
      ++ toString port ++ "\nCOPY --from=build /app/app.jar /app/app.jar\n"
      ++ ("EXPOSE " ++ toString port)
      ++ "\nENTRYPOINT [\"java\", \"-jar\", \"/app/app.jar\"]"
  else
    "# Stage 1: Build\nFROM eclipse-temurin:25-jdk AS build\nWORKDIR /app\nRUN apt-get update && apt-get install -y maven && rm -rf /var/lib/apt/lists/*\nCOPY . .\nRUN if [ -f apps/"
      ++ projectName ++ "/pom.xml ]; then mvn -q -DskipTests -f apps/"
      ++ projectName ++ "/pom.xml package; else mvn -q -DskipTests package; fi\nRUN if [ -f apps/"
      ++ projectName ++ "/target/app.jar ]; then cp apps/"
      ++ projectName ++ "/target/app.jar /app/app.jar; else cp target/app.jar /app/app.jar; fi\n\n# Stage 2: Minimal runtime\nFROM eclipse-temurin:25-jdk AS jlink\nRUN $JAVA_HOME/bin/jlink \\\n  --module-path $JAVA_HOME/jmods \\\n  --add-modules java.base,java.logging,java.xml,java.naming,java.sql,java.management,jdk.unsupported \\\n  --output /javaruntime \\\n  --compress=2 --no-header-files --no-man-pages\n\n# Stage 3: Final image\nFROM debian:bookworm-slim\nWORKDIR /app\nCOPY --from=jlink /javaruntime /opt/java-minimal\nENV PATH=\"/opt/java-minimal/bin:$PATH\"\nENV PORT="
      ++ toString port ++ "\nCOPY --from=build /app/app.jar /app/app.jar\n"
      ++ ("EXPOSE " ++ toString port)
      ++ "\nENTRYPOINT [\"java\", \"-jar\", \"/app/app.jar\"]"

/-- `buildDockerfileContent` (wizard.js lines 2779-2802): the generic
single-stage template, or the Java template for a Java profile. -/
def buildDockerfileContent (a : Answers) : String :=
  let profile := getLanguageProfileStr a.language
  if profile.isJava then buildJavaDockerfileContent a
  else
    let baseImage := getBaseDockerImage a
    let port := getDockerPort a
    "FROM " ++ baseImage ++ "\n\nWORKDIR /app\n\nENV PORT=" ++ toString port ++ "\n\n"
      ++ getDockerCopyInstructions a ++ "\n\n"
      ++ getDockerBuildInstructions a ++ "\n\n"
      ++ getDockerRunInstructions ++ "\n\n"
      ++ ("EXPOSE " ++ toString port)
      ++ "\n\nCMD " ++ getDockerCmd a

/-- `getDockerComposeVolumes` (wizard.js lines 3052-3066). -/
def getDockerComposeVolumes (a : Answers) : String :=
  let profile := getLanguageProfileStr a.language
  if profile.isJsTs then "    volumes:\n      - .:/app\n      - /app/node_modules\n"
  else if profile.isPython then "    volumes:\n      - .:/app\n"
  else ""

/-- `buildDockerComposeContent` (wizard.js lines 3009-3050): the compose
template; the app service maps and exports the application port. -/
def buildDockerComposeContent (a : Answers) : String :=
  let includeDb := a.includeDbService
  let port := getDockerPort a
  let dependsOn := if includeDb then "    depends_on:\n      - db\n" else ""
  let dbEnv :=
    if includeDb then
      "      - DB_HOST=db\n      - DB_PORT=5432\n      - DB_NAME=app_db\n      - DB_USER=app_user\n      - DB_PASSWORD=app_password\n      - DATABASE_URL=postgresql://app_user:app_password@db:5432/app_db\n"
    else ""
  let volumes := getDockerComposeVolumes a
  let dbService :=
    if includeDb then
      "\n  db:\n    image: postgres:15-alpine\n    environment:\n      - POSTGRES_DB=app_db\n      - POSTGRES_USER=app_user\n      - POSTGRES_PASSWORD=app_password\n    volumes:\n      - db_data:/var/lib/postgresql/data\n    ports:\n      - \"5432:5432\"\n"
    else ""
  let volumeBlock := if includeDb then "\nvolumes:\n  db_data:\n" else ""
  "services:\n  app:\n    build: .\n    ports:\n      - "
    ++ ("\"" ++ toString port ++ ":" ++ toString port ++ "\"")
    ++ "\n    environment:\n      - NODE_ENV=development\n      - PYTHONPATH=/app\n      - PORT="
    ++ toString port ++ "\n"
    ++ dbEnv ++ "\n" ++ volumes ++ "\n" ++ dependsOn ++ dbService ++ volumeBlock

/-! ### Shared concrete configurations -/

/-- The config produced by `--quarkus` alone. -/
def quarkusOnlyConfig : CliConfig :=
  { CliConfig.empty with nonInteractive := true, javaFramework := some ("quarkus") }

/-- The fully defaulted answers (non-interactive path, no overriding flag). -/
def defaultAnswers : Answers := applyNonInteractiveDefaults CliConfig.empty

/-- A non-workspace Python API-service configuration. -/
def pythonApiAnswers : Answers :=
  { defaultAnswers with
    language := "Python"
    projectType := "API service"
    useNx := false
    enableAutomation := none
    nxPreset := none }

/-- A workspace configuration on the Angular preset. -/
def angularAnswers : Answers :=
  { defaultAnswers with nxPreset := some ("Angular"), useNx := true }

/-! ### Theorems -/

/-- The database-offer decision exactly as the code computes it, stated as a
function of the four inputs named by the (amended) claim: in workspace mode
the normalized preset must be `node`, `java` or `dotnet`; outside workspace
mode the profile must be Java or .NET, or be JS/TS with a project type
containing `api`. -/
def dbOfferRule (useNx : Bool) (preset : String) (profile : LanguageProfile)
    (projectType : String) : Bool :=
  if useNx then preset = "node" ∨ preset = "java" ∨ preset = "dotnet"
  else profile.isJava ∨ profile.isDotnet
    ∨ (profile.isJsTs ∧ strContains (jsToLower projectType) ("api"))

/-- C5 (counterexample): outside workspace mode, a Python API-service
configuration is *not* offered the database service, refuting the claim's
"every configuration whose project type is an API service is offered the
database service". -/
theorem shouldOfferDb_pythonApi_false :
    pythonApiAnswers.useNx = false
      ∧ pythonApiAnswers.projectType = "API service"
      ∧ pythonApiAnswers.shouldOfferDatabaseService = false := by
  decide

/-- C5 (amended): the database-offer decision is a pure function of
(workspace-mode, normalized preset, language profile, project type), equal to
`dbOfferRule`: in workspace mode it offers exactly the `node`/`java`/`dotnet`
presets; outside workspace mode it offers Java or .NET profiles, and JS/TS
profiles whose project type mentions an API — but not other-language
API-service projects. -/
theorem shouldOfferDb_eq_rule (a : Answers) :
    a.shouldOfferDatabaseService
      = dbOfferRule a.useNx a.getNormalizedNxPreset a.getLanguageProfile a.projectType := by
  unfold Answers.shouldOfferDatabaseService shouldOfferDbCore dbOfferRule
    Answers.getNormalizedNxPreset Answers.getLanguageProfile
  cases a.useNx <;> simp [List.elem_iff, List.contains, getLanguageProfileStr]
  by_cases h : isJavaLanguageStr a.language = true <;> simp [h]

/-- C6: parsing `--quarkus` alone succeeds with only the Java-framework field
set, and the non-interactive defaults then resolve the language to the Java
family with sub-framework `quarkus` and pick the `Java` workspace preset (not
the bare default). -/
theorem quarkus_alone_resolves_java :
    parseCliOptions ["--quarkus"] = Except.ok quarkusOnlyConfig
      ∧ (applyNonInteractiveDefaults quarkusOnlyConfig).language = "Java (Spring Boot/Quarkus)"
      ∧ isJavaLanguageStr (applyNonInteractiveDefaults quarkusOnlyConfig).language = true
      ∧ (applyNonInteractiveDefaults quarkusOnlyConfig).getJavaFramework = some ("quarkus")
      ∧ (applyNonInteractiveDefaults quarkusOnlyConfig).useNx = true
      ∧ (applyNonInteractiveDefaults quarkusOnlyConfig).nxPreset = some ("Java") := by
  refine ⟨rfl, ?_, ?_, ?_, ?_, ?_⟩ <;> decide

/-- C8 (counterexample): answering every interactive prompt with the empty
string does not reproduce the non-interactive default record exactly — the
records differ (in the GitHub-handle field). -/
theorem interactive_empty_ne_defaults :
    runInteractive PromptInputs.allEmpty ≠ applyNonInteractiveDefaults CliConfig.empty := by
  decide

/-- C8 (amended): the all-empty interactive run agrees with the
non-interactive default record on every field except the GitHub handle:
interactively the handle is set to the empty string, while the defaults path
leaves it unset. -/
theorem interactive_empty_matches_defaults_except_githubUser :
    { runInteractive PromptInputs.allEmpty with githubUser := none }
        = applyNonInteractiveDefaults CliConfig.empty
      ∧ (runInteractive PromptInputs.allEmpty).githubUser = some ("")
      ∧ (applyNonInteractiveDefaults CliConfig.empty).githubUser = none := by
  decide

/-- C9: on both resolution paths, the database-service toggle can only be set
when the Dockerfile toggle is set: `includeDbService → createDockerfile`. -/
theorem includeDb_implies_docker :
    (∀ cfg : CliConfig,
        (applyNonInteractiveDefaults cfg).includeDbService = true →
          (applyNonInteractiveDefaults cfg).createDockerfile = true)
      ∧ (∀ inp : PromptInputs,
        (runInteractive inp).includeDbService = true →
          (runInteractive inp).createDockerfile = true) := by
  constructor
  · intro cfg h
    unfold applyNonInteractiveDefaults at h ⊢
    cases hD : cfg.dockerOverride.getD true <;> simp [hD] at h ⊢
  · intro inp h
    unfold runInteractive at h ⊢
    cases hD : askYesNo inp.createDockerfileAnswer ("yes") <;> simp [hD] at h ⊢

/-- Witness for C9 at a concrete configuration with the database service
enabled. -/
theorem includeDb_implies_docker_witness :
    (applyNonInteractiveDefaults quarkusOnlyConfig).includeDbService = true
      ∧ (applyNonInteractiveDefaults quarkusOnlyConfig).createDockerfile = true :=
  ⟨by decide, includeDb_implies_docker.1 quarkusOnlyConfig (by decide)⟩

/-- Membership is preserved by `dedupFirst`. -/
theorem mem_dedupFirst {x : String} : ∀ {l : List String}, x ∈ dedupFirst l ↔ x ∈ l := by
  intro l
  induction l using dedupFirst.induct with
  | case1 => simp [dedupFirst]
  | case2 a rest ih =>
    simp only [dedupFirst, List.mem_cons, ih, List.mem_filter, decide_eq_true_eq]
    by_cases hx : x = a <;> simp [hx]

/-- `dedupFirst` output has no duplicates. -/
theorem dedupFirst_nodup : ∀ l : List String, (dedupFirst l).Nodup := by
  intro l
  induction l using dedupFirst.induct with
  | case1 => simp [dedupFirst]
  | case2 a rest ih =>
    rw [dedupFirst, List.nodup_cons]
    refine ⟨fun hmem => ?_, ih⟩
    rw [mem_dedupFirst] at hmem
    simp [List.mem_filter] at hmem

/-- Membership in a conditionally empty list. -/
theorem mem_if_nil {c : Prop} [Decidable c] {l : List String} {x : String} :
    x ∈ (if c then l else []) ↔ c ∧ x ∈ l := by
  split <;> simp_all

/-- Whatever `depSystemPackages` emits for a free-text dependency is in the
allow-list. -/
theorem depSystemPackages_allowed (d x : String) (h : x ∈ depSystemPackages d) :
    x ∈ allowedSystemPackages := by
  unfold depSystemPackages at h
  rcases hp : pythonToSystem (jsToLower d) with - | m <;> simp only [hp] at h
  · by_cases h1 : jsToLower d ∈ allowedSystemPackages <;> simp [h1] at h
    subst h
    exact h1
  · by_cases h2 : m ∈ allowedSystemPackages <;> simp [h2] at h
    · subst h
      exact h2
    · by_cases h1 : jsToLower d ∈ allowedSystemPackages <;> simp [h1] at h
      subst h
      exact h1

/-- Every element of the generated devbox package list belongs to the fixed
allow-list of known system packages. -/
theorem getDevboxPackages_subset_allowed (a : Answers) (x : String)
    (h : x ∈ getDevboxPackages a) : x ∈ allowedSystemPackages := by
  unfold getDevboxPackages at h
  rw [mem_dedupFirst] at h
  simp only [List.mem_append, mem_if_nil, or_assoc] at h
  rcases h with h|⟨-,h⟩|⟨-,h⟩|⟨-,h⟩|⟨-,h⟩|⟨-,h⟩|⟨-,h⟩|⟨-,h⟩|⟨-,h⟩|⟨-,h⟩|⟨-,h⟩|⟨-,h⟩
  all_goals first
    | (fin_cases h <;> decide)
    | (rw [List.mem_flatMap] at h
       obtain ⟨d, -, hd⟩ := h
       exact depSystemPackages_allowed d x hd)

/-- C3: a free-text dependency name that is neither in the system-package
allow-list nor mapped into it by the alias table never appears in the
generated devbox package list, for every configuration (workspace mode or
not). -/
theorem unlisted_dep_not_in_devbox (d : String) (a : Answers)
    (hAllow : d ∉ allowedSystemPackages) (hAlias : pythonToSystem d = none) :
    d ∉ getDevboxPackages a :=
  fun h => hAllow (getDevboxPackages_subset_allowed a d h)

/-- A configuration whose free-text dependency list names an unknown package. -/
def depsAnswers : Answers :=
  { defaultAnswers with specificDependencies := "leftpad,ffmpeg" }

/-- Witness for C3: the unknown name `leftpad` is absent from the package
list even though it was requested. -/
theorem unlisted_dep_not_in_devbox_witness :
    ("leftpad" ∉ allowedSystemPackages) ∧ pythonToSystem ("leftpad") = none
      ∧ "leftpad" ∉ getDevboxPackages depsAnswers :=
  ⟨by decide, by decide, unlisted_dep_not_in_devbox ("leftpad") depsAnswers (by decide) (by decide)⟩

/-- C10: for every configuration the devbox package list has no duplicates,
contains the base tools `git`, `curl` and `wget`, and only ever contains
known system package names. -/
theorem devbox_packages_wellformed (a : Answers) :
    (getDevboxPackages a).Nodup
      ∧ "git" ∈ getDevboxPackages a
      ∧ "curl" ∈ getDevboxPackages a
      ∧ "wget" ∈ getDevboxPackages a
      ∧ ∀ p ∈ getDevboxPackages a, p ∈ allowedSystemPackages := by
  refine ⟨?_, ?_, ?_, ?_, fun p hp => getDevboxPackages_subset_allowed a p hp⟩
  · unfold getDevboxPackages
    exact dedupFirst_nodup _
  all_goals
    unfold getDevboxPackages
    rw [mem_dedupFirst]
    iterate 11 apply List.mem_append_left
    decide

/-- Witness for C10 at the default configuration, instantiating the
universally quantified membership clause at `git`. -/
theorem devbox_packages_wellformed_witness :
    "git" ∈ getDevboxPackages defaultAnswers ∧ "git" ∈ allowedSystemPackages :=
  ⟨(devbox_packages_wellformed defaultAnswers).2.1,
   (devbox_packages_wellformed defaultAnswers).2.2.2.2 ("git")
     (devbox_packages_wellformed defaultAnswers).2.1⟩

/-! ### Slug (C4) -/

/-- Adjacent characters are never both hyphens. -/
def noDoubleHyphen (a b : Char) : Prop := ¬(a = '-' ∧ b = '-')

instance (a b : Char) : Decidable (noDoubleHyphen a b) :=
  inferInstanceAs (Decidable (¬(a = '-' ∧ b = '-')))

/-- Lower-casing fixes every slug-allowed character (none is an ASCII
capital). -/
theorem toLower_fix {c : Char} (h : allowedSlugChar c = true) : c.toLower = c := by
  simp only [allowedSlugChar, decide_eq_true_eq] at h
  rcases h with ⟨h1, h2⟩ | ⟨h1, h2⟩ | rfl | rfl
  · simp only [Char.toLower]
    rw [if_neg (by omega)]
  · simp only [Char.toLower]
    rw [if_neg (by omega)]
  · decide
  · decide

/-- Every character emitted by `sanitizeRuns` is slug-allowed. -/
theorem sanitizeRuns_allowed : ∀ l : List Char, ∀ c ∈ sanitizeRuns l, allowedSlugChar c = true := by
  intro l
  induction l using sanitizeRuns.induct with
  | case1 => simp [sanitizeRuns]
  | case2 c cs hc ih =>
    intro x hx
    rw [sanitizeRuns, if_pos hc] at hx
    rcases List.mem_cons.mp hx with rfl | hx
    · exact hc
    · exact ih x hx
  | case3 c cs hc ih =>
    intro x hx
    rw [sanitizeRuns, if_neg hc] at hx
    rcases List.mem_cons.mp hx with rfl | hx
    · decide
    · exact ih x hx

/-- `trimHyphens` only removes characters. -/
theorem trimHyphens_subset {x : Char} {l : List Char} (h : x ∈ trimHyphens l) : x ∈ l := by
  unfold trimHyphens at h
  rw [List.mem_reverse] at h
  have h1 := (List.dropWhile_sublist _).subset h
  rw [List.mem_reverse] at h1
  exact (List.dropWhile_sublist _).subset h1

/-- The head surviving a `dropWhile` fails the predicate. -/
theorem head?_dropWhile_ne (p : Char → Bool) (l : List Char) {c : Char}
    (h : (l.dropWhile p).head? = some c) : p c = false := by
  have hx := List.head?_dropWhile_not p l
  rw [h] at hx
  exact hx

/-- A nonempty suffix has the same last element. -/
theorem getLast?_of_suffix {l₁ l₂ : List Char} (h : l₁ <:+ l₂) (hne : l₁ ≠ []) :
    l₂.getLast? = l₁.getLast? := by
  obtain ⟨t, rfl⟩ := h
  induction t with
  | nil => rfl
  | cons a t ih =>
    cases ht : t ++ l₁ with
    | nil => exact absurd (List.append_eq_nil.mp ht).2 hne
    | cons b u =>
      rw [List.cons_append, ht, List.getLast?_cons_cons, ← ht, ih]

/-- The result of `trimHyphens` never starts with a hyphen. -/
theorem trimHyphens_head?_ne (l : List Char) : (trimHyphens l).head? ≠ some '-' := by
  unfold trimHyphens
  rw [List.head?_reverse]
  intro h
  have hne : (l.dropWhile (fun c => c = '-')).reverse.dropWhile (fun c => c = '-') ≠ [] := by
    intro hd
    rw [hd] at h
    simp at h
  have heq := getLast?_of_suffix (List.dropWhile_suffix _) hne
  rw [List.getLast?_reverse, h] at heq
  have := head?_dropWhile_ne _ _ heq
  simp at this

/-- The result of `trimHyphens` never ends with a hyphen. -/
theorem trimHyphens_getLast?_ne (l : List Char) : (trimHyphens l).getLast? ≠ some '-' := by
  unfold trimHyphens
  rw [List.getLast?_reverse]
  intro h
  have := head?_dropWhile_ne _ _ h
  simp at this

/-- `collapseHyphens` keeps the head. -/
theorem collapseHyphens_head? (l : List Char) : (collapseHyphens l).head? = l.head? := by
  cases l with
  | nil => simp [collapseHyphens]
  | cons c cs =>
    rw [collapseHyphens]
    split
    · rename_i h
      simp [h]
    · rfl

/-- `collapseHyphens` of a nonempty list is nonempty. -/
theorem collapseHyphens_eq_nil_iff (l : List Char) : collapseHyphens l = [] ↔ l = [] := by
  cases l with
  | nil => simp [collapseHyphens]
  | cons c cs =>
    rw [collapseHyphens]
    split <;> simp

/-- `collapseHyphens` keeps every character allowed. -/
theorem collapseHyphens_allowed :
    ∀ l : List Char, (∀ c ∈ l, allowedSlugChar c = true) →
      ∀ c ∈ collapseHyphens l, allowedSlugChar c = true := by
  intro l
  induction l using collapseHyphens.induct with
  | case1 => simp [collapseHyphens]
  | case2 cs ih =>
    intro hall x hx
    rw [collapseHyphens, if_pos rfl] at hx
    rcases List.mem_cons.mp hx with rfl | hx
    · decide
    · exact ih (fun y hy => hall y (List.mem_cons_of_mem _ ((List.dropWhile_sublist _).subset hy))) x hx
  | case3 c cs hc ih =>
    intro hall x hx
    rw [collapseHyphens, if_neg hc] at hx
    rcases List.mem_cons.mp hx with rfl | hx
    · exact hall _ (List.mem_cons_self _ _)
    · exact ih (fun y hy => hall y (List.mem_cons_of_mem _ hy)) x hx

/-- `collapseHyphens` leaves no two adjacent hyphens. -/
theorem collapseHyphens_chain :
    ∀ l : List Char, (collapseHyphens l).Chain' noDoubleHyphen := by
  intro l
  induction l using collapseHyphens.induct with
  | case1 => simp [collapseHyphens]
  | case2 cs ih =>
    rw [collapseHyphens, if_pos rfl, List.chain'_cons']
    refine ⟨?_, ih⟩
    intro y hy
    rw [collapseHyphens_head?] at hy
    have hne := head?_dropWhile_ne _ _ hy
    intro hcontra
    rw [hcontra.2] at hne
    simp at hne
  | case3 c cs hc ih =>
    rw [collapseHyphens, if_neg hc, List.chain'_cons']
    refine ⟨?_, ih⟩
    intro y hy
    intro hcontra
    exact hc hcontra.1

/-- If every member of a nonempty list is a hyphen, so is its last element. -/
theorem getLast?_hyphen_of_all {cs : List Char} (hne : cs ≠ [])
    (hall : ∀ x ∈ cs, x = '-') : cs.getLast? = some '-' := by
  rw [List.getLast?_eq_getLast cs hne]
  exact congrArg some (hall _ (List.getLast_mem hne))

/-- `collapseHyphens` preserves "does not end with a hyphen". -/
theorem collapseHyphens_getLast?_ne :
    ∀ l : List Char, l.getLast? ≠ some '-' → (collapseHyphens l).getLast? ≠ some '-' := by
  intro l
  induction l using collapseHyphens.induct with
  | case1 => simp [collapseHyphens]
  | case2 cs ih =>
    intro h
    have hcs : cs ≠ [] := by
      intro hnil
      subst hnil
      simp at h
    have hlast0 : ('-' :: cs).getLast? = cs.getLast? := by
      cases cs with
      | nil => exact absurd rfl hcs
      | cons b u => exact List.getLast?_cons_cons
    rw [hlast0] at h
    have hdnil : cs.dropWhile (fun x => x = '-') ≠ [] := by
      intro hdeq
      have hall := List.dropWhile_eq_nil_iff.mp hdeq
      exact h (getLast?_hyphen_of_all hcs (fun x hx => by simpa using hall x hx))
    have hgl : (cs.dropWhile (fun x => x = '-')).getLast? = cs.getLast? :=
      (getLast?_of_suffix (List.dropWhile_suffix _) hdnil).symm
    have htail : (collapseHyphens (cs.dropWhile (fun x => x = '-'))).getLast? ≠ some '-' := by
      apply ih
      rw [hgl]
      exact h
    have hcol : collapseHyphens (cs.dropWhile (fun x => x = '-')) ≠ [] :=
      fun hh => hdnil ((collapseHyphens_eq_nil_iff _).mp hh)
    rw [collapseHyphens, if_pos rfl]
    cases hc2 : collapseHyphens (cs.dropWhile (fun x => x = '-')) with
    | nil => exact absurd hc2 hcol
    | cons e v =>
      rw [List.getLast?_cons_cons]
      rw [hc2] at htail
      exact htail
  | case3 c cs hc ih =>
    intro h
    rw [collapseHyphens, if_neg hc]
    by_cases hcs : cs = []
    · subst hcs
      rw [show collapseHyphens ([] : List Char) = [] from (collapseHyphens_eq_nil_iff []).mpr rfl]
      exact h
    · have hlast0 : (c :: cs).getLast? = cs.getLast? := by
        cases cs with
        | nil => exact absurd rfl hcs
        | cons b u => exact List.getLast?_cons_cons
      rw [hlast0] at h
      have htail := ih h
      have hcol : collapseHyphens cs ≠ [] :=
        fun hh => hcs ((collapseHyphens_eq_nil_iff _).mp hh)
      cases hc2 : collapseHyphens cs with
      | nil => exact absurd hc2 hcol
      | cons e v =>
        rw [List.getLast?_cons_cons]
        rw [hc2] at htail
        exact htail

/-- `sanitizeRuns` fixes lists of allowed characters. -/
theorem sanitizeRuns_fix :
    ∀ l : List Char, (∀ c ∈ l, allowedSlugChar c = true) → sanitizeRuns l = l := by
  intro l
  induction l using sanitizeRuns.induct with
  | case1 => intro _; simp [sanitizeRuns]
  | case2 c cs hc ih =>
    intro hall
    rw [sanitizeRuns, if_pos hc, ih (fun y hy => hall y (List.mem_cons_of_mem _ hy))]
  | case3 c cs hc ih =>
    intro hall
    exact absurd (hall c (List.mem_cons_self _ _)) hc

/-- Dropping leading hyphens does nothing when the head is not a hyphen. -/
theorem dropWhile_hyphen_id {l : List Char} (h : l.head? ≠ some '-') :
    l.dropWhile (fun c => c = '-') = l := by
  cases l with
  | nil => rfl
  | cons c cs =>
    apply List.dropWhile_cons_of_neg
    simp only [List.head?_cons, Ne, Option.some.injEq] at h
    simp [h]

/-- `trimHyphens` fixes lists with no leading or trailing hyphen. -/
theorem trimHyphens_fix {l : List Char} (h1 : l.head? ≠ some '-')
    (h2 : l.getLast? ≠ some '-') : trimHyphens l = l := by
  unfold trimHyphens
  rw [dropWhile_hyphen_id h1]
  rw [dropWhile_hyphen_id (by rw [List.head?_reverse]; exact h2)]
  exact List.reverse_reverse l

/-- `collapseHyphens` fixes lists with no two adjacent hyphens. -/
theorem collapseHyphens_fix :
    ∀ l : List Char, l.Chain' noDoubleHyphen → collapseHyphens l = l := by
  intro l
  induction l using collapseHyphens.induct with
  | case1 => intro _; simp [collapseHyphens]
  | case2 cs ih =>
    intro hch
    rw [List.chain'_cons'] at hch
    have hcs : cs.dropWhile (fun x => x = '-') = cs := by
      apply dropWhile_hyphen_id
      intro hh
      exact hch.1 '-' hh ⟨rfl, rfl⟩
    rw [hcs] at ih
    rw [collapseHyphens, if_pos rfl, hcs, ih hch.2]
  | case3 c cs hc ih =>
    intro hch
    rw [List.chain'_cons'] at hch
    rw [collapseHyphens, if_neg hc, ih hch.2]

/-- The slug pipeline always produces a canonical character list: all
characters allowed, no hyphen at either end, no two adjacent hyphens. -/
theorem slugPipeline_canon (s : String) :
    (∀ c ∈ slugPipeline s, allowedSlugChar c = true)
      ∧ (slugPipeline s).head? ≠ some '-'
      ∧ (slugPipeline s).getLast? ≠ some '-'
      ∧ (slugPipeline s).Chain' noDoubleHyphen := by
  unfold slugPipeline
  refine ⟨?_, ?_, ?_, collapseHyphens_chain _⟩
  · exact collapseHyphens_allowed _
      (fun c hc => sanitizeRuns_allowed _ c (trimHyphens_subset hc))
  · rw [collapseHyphens_head?]
    exact trimHyphens_head?_ne _
  · exact collapseHyphens_getLast?_ne _ (trimHyphens_getLast?_ne _)

/-- The slug pipeline fixes its own (canonical, nonempty) output. -/
theorem slugPipeline_fix (l : List Char)
    (hall : ∀ c ∈ l, allowedSlugChar c = true)
    (h1 : l.head? ≠ some '-') (h2 : l.getLast? ≠ some '-')
    (hch : l.Chain' noDoubleHyphen) :
    slugPipeline (String.mk l) = l := by
  unfold slugPipeline
  have hlow : (jsToLower (String.mk l)).data = l := by
    show l.map Char.toLower = l
    rw [List.map_congr_left (fun c hc => toLower_fix (hall c hc))]
    exact List.map_id' l
  rw [hlow, sanitizeRuns_fix l hall, trimHyphens_fix h1 h2, collapseHyphens_fix l hch]

/-- `String.mk` produces the empty string only from the empty list. -/
theorem mk_eq_empty_iff (l : List Char) : String.mk l = "" ↔ l = [] := by
  constructor
  · intro h
    exact congrArg String.data h
  · intro h
    rw [h]

/-- C4: `getProjectSlug` is idempotent, never returns the empty string, and
falls back to the fixed token `app` exactly when the sanitize-trim-collapse
pipeline empties the name. -/
theorem projectSlug_idempotent_nonempty (s : String) :
    getProjectSlug (getProjectSlug s) = getProjectSlug s
      ∧ getProjectSlug s ≠ ""
      ∧ (slugPipeline (if s = "" then "my-project" else s) = [] → getProjectSlug s = "app") := by
  have happ : getProjectSlug ("app") = "app" := by
    have h : slugPipeline (String.mk ['a', 'p', 'p']) = ['a', 'p', 'p'] :=
      slugPipeline_fix (['a', 'p', 'p']) (by decide) (by decide) (by decide)
        (by simp [List.chain'_cons, noDoubleHyphen])
    simp only [getProjectSlug]
    rw [show (if ("app" : String) = "" then "my-project" else ("app" : String)) = "app" from rfl]
    rw [show slugPipeline ("app") = ['a', 'p', 'p'] from h]
    rfl
  by_cases hnil : slugPipeline (if s = "" then "my-project" else s) = []
  · have hs : getProjectSlug s = "app" := by
      simp only [getProjectSlug]
      rw [hnil]
      rfl
    refine ⟨?_, ?_, fun _ => hs⟩
    · rw [hs]
      exact happ
    · rw [hs]
      decide
  · have hcanon := slugPipeline_canon (if s = "" then "my-project" else s)
    set r := slugPipeline (if s = "" then "my-project" else s) with hr
    have hmk : String.mk r ≠ "" := fun h => hnil ((mk_eq_empty_iff r).mp h)
    have hs : getProjectSlug s = String.mk r := by
      simp only [getProjectSlug]
      rw [← hr, if_neg hmk]
    have hpipe : slugPipeline (String.mk r) = r :=
      slugPipeline_fix r hcanon.1 hcanon.2.1 hcanon.2.2.1 hcanon.2.2.2
    have hs2 : getProjectSlug (String.mk r) = String.mk r := by
      simp only [getProjectSlug]
      rw [if_neg hmk, hpipe, if_neg hmk]
    refine ⟨?_, ?_, fun h => absurd h hnil⟩
    · rw [hs]
      exact hs2
    · rw [hs]
      exact hmk

/-! ### Artifact port consistency (C1) -/

/-- A string contains itself. -/
theorem strContains_refl (m : String) : strContains m m = true := by
  unfold strContains
  rw [decide_eq_true_eq]

/-- Containment is preserved by appending on the left. -/
theorem strContains_append_right {t m : String} (s : String) (h : strContains t m = true) :
    strContains (s ++ t) m = true := by
  unfold strContains at h ⊢
  rw [decide_eq_true_eq] at h ⊢
  rw [String.data_append]
  exact h.trans (List.suffix_append s.data t.data).isInfix

/-- Containment is preserved by appending on the right. -/
theorem strContains_append_left {s m : String} (t : String) (h : strContains s m = true) :
    strContains (s ++ t) m = true := by
  unfold strContains at h ⊢
  rw [decide_eq_true_eq] at h ⊢
  rw [String.data_append]
  exact h.trans (List.prefix_append s.data t.data).isInfix

/-- C1 (counterexample): on the Angular workspace preset the serve target of
the workspace configuration is given the *base* port (4200) while the
application port used by the container artifacts is 4201, so the claim that
every port-mentioning artifact uses the application port fails. -/
theorem nx_serve_port_mismatch :
    angularAnswers.useNx = true
      ∧ ensureNxServePortValue angularAnswers = some (4200)
      ∧ getDockerPort angularAnswers = 4201
      ∧ ensureNxServePortValue angularAnswers ≠ some (getDockerPort angularAnswers) := by
  decide

/-- C1 (amended): the docker-compose port mapping and the Dockerfile `EXPOSE`
line always use the single application port, which is the base port plus one;
the workspace serve-target port option, when written at all, instead uses the
base port itself (one below the application port). -/
theorem artifact_ports_amended (a : Answers) :
    strContains (buildDockerComposeContent a)
        ("\"" ++ toString (getDockerPort a) ++ ":" ++ toString (getDockerPort a) ++ "\"") = true
      ∧ strContains (buildDockerfileContent a) ("EXPOSE " ++ toString (getDockerPort a)) = true
      ∧ getDockerPort a = getDockerBasePort a + 1
      ∧ (∀ p, ensureNxServePortValue a = some p → p = getDockerBasePort a) := by
  refine ⟨?_, ?_, rfl, ?_⟩
  · simp only [buildDockerComposeContent]
    iterate 10 apply strContains_append_left
    apply strContains_append_right
    exact strContains_refl _
  · simp only [buildDockerfileContent]
    split
    · simp only [buildJavaDockerfileContent]
      split
      · apply strContains_append_left
        apply strContains_append_right
        exact strContains_refl _
      · split
        · apply strContains_append_left
          apply strContains_append_right
          exact strContains_refl _
        · apply strContains_append_left
          apply strContains_append_right
          exact strContains_refl _
    · iterate 2 apply strContains_append_left
      apply strContains_append_right
      exact strContains_refl _
  · intro p hp
    unfold ensureNxServePortValue at hp
    split at hp
    · injection hp with h
      exact h.symm
    · exact absurd hp (by simp)

/-- Witness for C1's amended serve-target clause on the Angular preset. -/
theorem artifact_ports_amended_witness :
    ensureNxServePortValue angularAnswers = some (4200)
      ∧ (4200 : Nat) = getDockerBasePort angularAnswers :=
  ⟨by decide, (artifact_ports_amended angularAnswers).2.2.2 (4200) (by decide)⟩

/-! ### Conflicting CLI flags abort parsing (C2) -/

/-- `parseArgs` on an erroring step. -/
theorem parseArgs_cons_err {st : ParseState} {arg : String} {rest : List String} {e : String}
    (h : parseStep st arg rest.head? = Except.error e) :
    parseArgs st (arg :: rest) = Except.error e := by
  simp only [parseArgs, h]

/-- `parseArgs` on a non-consuming step. -/
theorem parseArgs_cons_ok_false {st : ParseState} {arg : String} {rest : List String}
    {st2 : ParseState} (h : parseStep st arg rest.head? = Except.ok (st2, false)) :
    parseArgs st (arg :: rest) = parseArgs st2 rest := by
  simp only [parseArgs, h]

/-- `parseArgs` on a value-consuming step. -/
theorem parseArgs_cons_ok_true {st : ParseState} {arg nextArg : String} {rest2 : List String}
    {st2 : ParseState} (h : parseStep st arg (nextArg :: rest2).head? = Except.ok (st2, true)) :
    parseArgs st (arg :: nextArg :: rest2) = parseArgs st2 rest2 := by
  simp only [parseArgs, h]

/-- A successful step preserves each already-set toggle direction and only
grows the plain-flag set.  (The branch that would flip a toggle errors
instead when the opposite direction is already set.) -/
theorem parseStep_ok_pres {st : ParseState} {arg : String} {next : Option String}
    {st2 : ParseState} {c : Bool} (h : parseStep st arg next = Except.ok (st2, c)) :
    (st.dockerOverride = some false → st2.dockerOverride = some false)
    ∧ (st.dockerOverride = some true → st2.dockerOverride = some true)
    ∧ (st.dbOverride = some false → st2.dbOverride = some false)
    ∧ (st.dbOverride = some true → st2.dbOverride = some true)
    ∧ (st.javaFramework = some ("quarkus") → st2.javaFramework = some ("quarkus"))
    ∧ (st.javaFramework = some ("spring-boot") → st2.javaFramework = some ("spring-boot"))
    ∧ st.flags ⊆ st2.flags := by
  simp only [parseStep] at h
  by_cases hHelp : arg = "-h"
  · rw [if_pos hHelp] at h
    injection h with h'
    injection h' with h1 h2
    subst h1
    refine ⟨?_, ?_, ?_, ?_, ?_, ?_, List.subset_append_left _ _⟩ <;>
      (intro hF
       simp_all [ParseState.addFlag])
  rw [if_neg hHelp] at h
  by_cases hDash : ¬ (jsStartsWith arg ("--")) = true
  · rw [if_pos hDash] at h
    injection h with h'
    injection h' with h1 h2
    subst h1
    exact ⟨fun hF => hF, fun hF => hF, fun hF => hF, fun hF => hF, fun hF => hF, fun hF => hF,
      fun x hx => hx⟩
  rw [if_neg hDash] at h
  repeat' split at h
  all_goals first
    | exact Except.noConfusion h
    | (injection h with h'
       injection h' with h1 h2
       subst h1
       refine ⟨?_, ?_, ?_, ?_, ?_, ?_, ?_⟩ <;>
         first
           | exact List.subset_append_left _ _
           | exact fun x hx => hx
           | (intro hF
              simp_all [ParseState.addFlag, ParseState.setProjectName, ParseState.setGithubUser,
                ParseState.setDockerOverride, ParseState.setDbOverride, ParseState.setJavaFramework]))

/-- A step only reports a consumed value when the next argument exists, is
nonempty and does not start with a dash. -/
theorem parseStep_consumed {st : ParseState} {arg : String} {next : Option String}
    {st2 : ParseState} (h : parseStep st arg next = Except.ok (st2, true)) :
    ∃ v, next = some v ∧ v ≠ "" ∧ jsStartsWith v ("-") = false := by
  simp only [parseStep] at h
  by_cases hHelp : arg = "-h"
  · rw [if_pos hHelp] at h
    injection h with h'
    injection h' with h1 h2
    exact absurd h2 (by simp)
  rw [if_neg hHelp] at h
  by_cases hDash : ¬ (jsStartsWith arg ("--")) = true
  · rw [if_pos hDash] at h
    injection h with h'
    injection h' with h1 h2
    exact absurd h2 (by simp)
  rw [if_neg hDash] at h
  repeat' split at h
  all_goals first
    | exact Except.noConfusion h
    | (injection h with h'
       injection h' with h1 h2
       exact absurd h2 Bool.false_ne_true)
    | (injection h with h'
       injection h' with h1 h2
       rename_i hcond
       refine ⟨_, rfl, hcond.1, ?_⟩
       simpa using hcond.2)

/-- If a state invariant makes the trigger argument error, is preserved by
every successful step, and the trigger starts with a dash (so it is never
consumed as a flag value), then any argument list containing the trigger
makes `parseArgs` fail from any state satisfying the invariant. -/
theorem parseArgs_err_of_inv (Inv : ParseState → Prop) (trigger : String)
    (hStart : jsStartsWith trigger ("-") = true)
    (hTrig : ∀ st next, Inv st → ∃ e, parseStep st trigger next = Except.error e)
    (hPres : ∀ st arg next st2 c, Inv st → parseStep st arg next = Except.ok (st2, c) → Inv st2) :
    ∀ st args, Inv st → trigger ∈ args → ∃ e, parseArgs st args = Except.error e := by
  intro st args
  induction st, args using parseArgs.induct with
  | case1 st =>
    intro _ hMem
    exact absurd hMem (List.not_mem_nil _)
  | case2 st arg rest e heq =>
    intro _ _
    exact ⟨e, parseArgs_cons_err heq⟩
  | case3 st arg rest st2 heq ih =>
    intro hInv hMem
    by_cases htr : arg = trigger
    · subst htr
      obtain ⟨e, he⟩ := hTrig st rest.head? hInv
      rw [he] at heq
      exact absurd heq (by simp)
    · have hMem2 : trigger ∈ rest := by
        rcases List.mem_cons.mp hMem with h | h
        · exact absurd h.symm htr
        · exact h
      obtain ⟨e, he⟩ := ih (hPres st arg rest.head? st2 false hInv heq) hMem2
      exact ⟨e, (parseArgs_cons_ok_false heq).trans he⟩
  | case4 st arg st2 heq ih =>
    intro _ _
    obtain ⟨v, hv, -, -⟩ := parseStep_consumed heq
    simp at hv
  | case5 st arg st2 nextArg rest2 heq ih =>
    intro hInv hMem
    by_cases htr : arg = trigger
    · subst htr
      obtain ⟨e, he⟩ := hTrig st (nextArg :: rest2).head? hInv
      rw [he] at heq
      exact absurd heq (by simp)
    · obtain ⟨v, hv, -, hdash⟩ := parseStep_consumed heq
      have hvnext : v = nextArg := by
        simp only [List.head?_cons, Option.some.injEq] at hv
        exact hv.symm
      rw [hvnext] at hdash
      have hMem2 : trigger ∈ rest2 := by
        rcases List.mem_cons.mp hMem with h | h
        · exact absurd h.symm htr
        · rcases List.mem_cons.mp h with h2 | h2
          · rw [h2] at hStart
            rw [hStart] at hdash
            cases hdash
          · exact h2
      obtain ⟨e, he⟩ := ih (hPres st arg (nextArg :: rest2).head? st2 true hInv heq) hMem2
      exact ⟨e, (parseArgs_cons_ok_true heq).trans he⟩

/-- Generic mutually-exclusive pair: if processing `t1` establishes the
invariant that makes `t2` error (and vice versa), both invariants are
preserved by successful steps, neither trigger is consumable as a value, and
both triggers occur, then parsing fails. -/
theorem parseArgs_pair_err (t1 t2 : String) (InvA InvB : ParseState → Prop)
    (hne : t1 ≠ t2)
    (h1start : jsStartsWith t1 ("-") = true) (h2start : jsStartsWith t2 ("-") = true)
    (hTrigA : ∀ st next, InvA st → ∃ e, parseStep st t1 next = Except.error e)
    (hTrigB : ∀ st next, InvB st → ∃ e, parseStep st t2 next = Except.error e)
    (hSet1 : ∀ st next st2 c, parseStep st t1 next = Except.ok (st2, c) → InvB st2 ∧ c = false)
    (hSet2 : ∀ st next st2 c, parseStep st t2 next = Except.ok (st2, c) → InvA st2 ∧ c = false)
    (hPresA : ∀ st arg next st2 c, InvA st → parseStep st arg next = Except.ok (st2, c) → InvA st2)
    (hPresB : ∀ st arg next st2 c, InvB st → parseStep st arg next = Except.ok (st2, c) → InvB st2) :
    ∀ st args, t1 ∈ args → t2 ∈ args → ∃ e, parseArgs st args = Except.error e := by
  intro st args
  induction st, args using parseArgs.induct with
  | case1 st =>
    intro h _
    exact absurd h (List.not_mem_nil _)
  | case2 st arg rest e heq =>
    intro _ _
    exact ⟨e, parseArgs_cons_err heq⟩
  | case3 st arg rest st2 heq ih =>
    intro h1 h2
    by_cases ht1 : arg = t1
    · subst ht1
      have hInvB := (hSet1 st rest.head? st2 false heq).1
      have h2' : t2 ∈ rest := by
        rcases List.mem_cons.mp h2 with h | h
        · exact absurd h.symm hne
        · exact h
      obtain ⟨e, he⟩ := parseArgs_err_of_inv InvB t2 h2start hTrigB hPresB st2 rest hInvB h2'
      exact ⟨e, (parseArgs_cons_ok_false heq).trans he⟩
    · by_cases ht2 : arg = t2
      · subst ht2
        have hInvA := (hSet2 st rest.head? st2 false heq).1
        have h1' : t1 ∈ rest := by
          rcases List.mem_cons.mp h1 with h | h
          · exact absurd h.symm ht1
          · exact h
        obtain ⟨e, he⟩ := parseArgs_err_of_inv InvA t1 h1start hTrigA hPresA st2 rest hInvA h1'
        exact ⟨e, (parseArgs_cons_ok_false heq).trans he⟩
      · have h1' : t1 ∈ rest := by
          rcases List.mem_cons.mp h1 with h | h
          · exact absurd h.symm ht1
          · exact h
        have h2' : t2 ∈ rest := by
          rcases List.mem_cons.mp h2 with h | h
          · exact absurd h.symm ht2
          · exact h
        obtain ⟨e, he⟩ := ih h1' h2'
        exact ⟨e, (parseArgs_cons_ok_false heq).trans he⟩
  | case4 st arg st2 heq ih =>
    intro _ _
    obtain ⟨v, hv, -, -⟩ := parseStep_consumed heq
    simp at hv
  | case5 st arg st2 nextArg rest2 heq ih =>
    intro h1 h2
    by_cases ht1 : arg = t1
    · subst ht1
      exact absurd (hSet1 st (nextArg :: rest2).head? st2 true heq).2 (by simp)
    · by_cases ht2 : arg = t2
      · subst ht2
        exact absurd (hSet2 st (nextArg :: rest2).head? st2 true heq).2 (by simp)
      · obtain ⟨v, hv, -, hdash⟩ := parseStep_consumed heq
        have hvnext : v = nextArg := by
          simp only [List.head?_cons, Option.some.injEq] at hv
          exact hv.symm
        rw [hvnext] at hdash
        have h1' : t1 ∈ rest2 := by
          rcases List.mem_cons.mp h1 with h | h
          · exact absurd h.symm ht1
          · rcases List.mem_cons.mp h with hx | hx
            · rw [hx] at h1start
              rw [h1start] at hdash
              cases hdash
            · exact hx
        have h2' : t2 ∈ rest2 := by
          rcases List.mem_cons.mp h2 with h | h
          · exact absurd h.symm ht2
          · rcases List.mem_cons.mp h with hx | hx
            · rw [hx] at h2start
              rw [h2start] at hdash
              cases hdash
            · exact hx
        obtain ⟨e, he⟩ := ih h1' h2'
        exact ⟨e, (parseArgs_cons_ok_true heq).trans he⟩

/-- Specialization of `parseStep` to the literal `--docker` argument. -/
theorem parseStep_docker_eq (st : ParseState) (next : Option String) :
    parseStep st ("--docker") next =
      if st.dockerOverride = some false then
        Except.error ("Use only one of --docker or --no-docker.")
      else Except.ok (st.setDockerOverride true, false) := rfl

/-- Specialization of `parseStep` to the literal `--no-docker` argument. -/
theorem parseStep_no_docker_eq (st : ParseState) (next : Option String) :
    parseStep st ("--no-docker") next =
      if st.dockerOverride = some true then
        Except.error ("Use only one of --docker or --no-docker.")
      else Except.ok (st.setDockerOverride false, false) := rfl

/-- Specialization of `parseStep` to the literal `--db` argument. -/
theorem parseStep_db_eq (st : ParseState) (next : Option String) :
    parseStep st ("--db") next =
      if st.dbOverride = some false then
        Except.error ("Use only one of --db or --no-db.")
      else Except.ok (st.setDbOverride true, false) := rfl

/-- Specialization of `parseStep` to the literal `--no-db` argument. -/
theorem parseStep_no_db_eq (st : ParseState) (next : Option String) :
    parseStep st ("--no-db") next =
      if st.dbOverride = some true then
        Except.error ("Use only one of --db or --no-db.")
      else Except.ok (st.setDbOverride false, false) := rfl

/-- Specialization of `parseStep` to the literal `--quarkus` argument. -/
theorem parseStep_quarkus_eq (st : ParseState) (next : Option String) :
    parseStep st ("--quarkus") next =
      if st.javaFramework.isSome ∧ st.javaFramework ≠ some ("quarkus") then
        Except.error ("Use only one of --quarkus or --spring-boot.")
      else Except.ok (st.setJavaFramework ("quarkus"), false) := rfl

/-- Specialization of `parseStep` to the literal `--spring-boot` argument. -/
theorem parseStep_spring_eq (st : ParseState) (next : Option String) :
    parseStep st ("--spring-boot") next =
      if st.javaFramework.isSome ∧ st.javaFramework ≠ some ("spring-boot") then
        Except.error ("Use only one of --quarkus or --spring-boot.")
      else Except.ok (st.setJavaFramework ("spring-boot"), false) := rfl

/-- Specialization of `parseStep` to a preset flag: the name is recorded in
the flag set and nothing is consumed. -/
theorem parseStep_preset_eq (p : String) (hp : p ∈ presetFlagNames)
    (st : ParseState) (next : Option String) :
    parseStep st ("--" ++ p) next = Except.ok (st.addFlag p, false) := by
  fin_cases hp <;> rfl

/-- Both `--docker` and `--no-docker` present: the argument loop fails. -/
theorem parseArgs_docker_pair :
    ∀ st args, "--docker" ∈ args → "--no-docker" ∈ args →
      ∃ e, parseArgs st args = Except.error e := by
  refine parseArgs_pair_err ("--docker") ("--no-docker")
    (fun st => st.dockerOverride = some false) (fun st => st.dockerOverride = some true)
    (by decide) (by decide) (by decide) ?_ ?_ ?_ ?_ ?_ ?_
  · intro st next hInv
    exact ⟨_, by rw [parseStep_docker_eq, if_pos hInv]⟩
  · intro st next hInv
    exact ⟨_, by rw [parseStep_no_docker_eq, if_pos hInv]⟩
  · intro st next st2 c h
    rw [parseStep_docker_eq] at h
    split at h
    · exact absurd h (by simp)
    · injection h with h'
      injection h' with h1 h2
      subst h1
      exact ⟨rfl, h2.symm⟩
  · intro st next st2 c h
    rw [parseStep_no_docker_eq] at h
    split at h
    · exact absurd h (by simp)
    · injection h with h'
      injection h' with h1 h2
      subst h1
      exact ⟨rfl, h2.symm⟩
  · intro st arg next st2 c hInv h
    exact (parseStep_ok_pres h).1 hInv
  · intro st arg next st2 c hInv h
    exact (parseStep_ok_pres h).2.1 hInv

/-- Both `--db` and `--no-db` present: the argument loop fails. -/
theorem parseArgs_db_pair :
    ∀ st args, "--db" ∈ args → "--no-db" ∈ args →
      ∃ e, parseArgs st args = Except.error e := by
  refine parseArgs_pair_err ("--db") ("--no-db")
    (fun st => st.dbOverride = some false) (fun st => st.dbOverride = some true)
    (by decide) (by decide) (by decide) ?_ ?_ ?_ ?_ ?_ ?_
  · intro st next hInv
    exact ⟨_, by rw [parseStep_db_eq, if_pos hInv]⟩
  · intro st next hInv
    exact ⟨_, by rw [parseStep_no_db_eq, if_pos hInv]⟩
  · intro st next st2 c h
    rw [parseStep_db_eq] at h
    split at h
    · exact absurd h (by simp)
    · injection h with h'
      injection h' with h1 h2
      subst h1
      exact ⟨rfl, h2.symm⟩
  · intro st next st2 c h
    rw [parseStep_no_db_eq] at h
    split at h
    · exact absurd h (by simp)
    · injection h with h'
      injection h' with h1 h2
      subst h1
      exact ⟨rfl, h2.symm⟩
  · intro st arg next st2 c hInv h
    exact (parseStep_ok_pres h).2.2.1 hInv
  · intro st arg next st2 c hInv h
    exact (parseStep_ok_pres h).2.2.2.1 hInv

/-- Both `--quarkus` and `--spring-boot` present: the argument loop fails. -/
theorem parseArgs_java_pair :
    ∀ st args, "--quarkus" ∈ args → "--spring-boot" ∈ args →
      ∃ e, parseArgs st args = Except.error e := by
  refine parseArgs_pair_err ("--quarkus") ("--spring-boot")
    (fun st => st.javaFramework = some ("spring-boot"))
    (fun st => st.javaFramework = some ("quarkus"))
    (by decide) (by decide) (by decide) ?_ ?_ ?_ ?_ ?_ ?_
  · intro st next hInv
    exact ⟨_, by rw [parseStep_quarkus_eq, if_pos (by rw [hInv]; exact ⟨rfl, by decide⟩)]⟩
  · intro st next hInv
    exact ⟨_, by rw [parseStep_spring_eq, if_pos (by rw [hInv]; exact ⟨rfl, by decide⟩)]⟩
  · intro st next st2 c h
    rw [parseStep_quarkus_eq] at h
    split at h
    · exact absurd h (by simp)
    · injection h with h'
      injection h' with h1 h2
      subst h1
      exact ⟨rfl, h2.symm⟩
  · intro st next st2 c h
    rw [parseStep_spring_eq] at h
    split at h
    · exact absurd h (by simp)
    · injection h with h'
      injection h' with h1 h2
      subst h1
      exact ⟨rfl, h2.symm⟩
  · intro st arg next st2 c hInv h
    exact (parseStep_ok_pres h).2.2.2.2.2.1 hInv
  · intro st arg next st2 c hInv h
    exact (parseStep_ok_pres h).2.2.2.2.1 hInv

/-- A successful run never loses recorded flags. -/
theorem parseArgs_flags_mono :
    ∀ st args st', parseArgs st args = Except.ok st' → st.flags ⊆ st'.flags := by
  intro st args
  induction st, args using parseArgs.induct with
  | case1 st =>
    intro st' h
    injection h with h
    subst h
    exact fun x hx => hx
  | case2 st arg rest e heq =>
    intro st' h
    rw [parseArgs_cons_err heq] at h
    exact absurd h (by simp)
  | case3 st arg rest st2 heq ih =>
    intro st' h
    rw [parseArgs_cons_ok_false heq] at h
    exact Set.Subset.trans (parseStep_ok_pres heq).2.2.2.2.2.2 (ih st' h)
  | case4 st arg st2 heq ih =>
    intro st' h
    obtain ⟨v, hv, -, -⟩ := parseStep_consumed heq
    simp at hv
  | case5 st arg st2 nextArg rest2 heq ih =>
    intro st' h
    rw [parseArgs_cons_ok_true heq] at h
    exact Set.Subset.trans (parseStep_ok_pres heq).2.2.2.2.2.2 (ih st' h)

/-- A preset flag present in the arguments of a successful run is recorded
in the final flag set. -/
theorem parseArgs_preset_flag (p : String) (hp : p ∈ presetFlagNames) :
    ∀ st args st', ("--" ++ p) ∈ args → parseArgs st args = Except.ok st' → p ∈ st'.flags := by
  intro st args
  induction st, args using parseArgs.induct with
  | case1 st =>
    intro st' hMem h
    exact absurd hMem (List.not_mem_nil _)
  | case2 st arg rest e heq =>
    intro st' hMem h
    rw [parseArgs_cons_err heq] at h
    exact absurd h (by simp)
  | case3 st arg rest st2 heq ih =>
    intro st' hMem h
    rw [parseArgs_cons_ok_false heq] at h
    by_cases harg : arg = "--" ++ p
    · subst harg
      rw [parseStep_preset_eq p hp] at heq
      injection heq with h'
      injection h' with h1 h2
      have hmemflags : p ∈ st2.flags := by
        rw [← h1]
        simp [ParseState.addFlag]
      exact parseArgs_flags_mono st2 rest st' h hmemflags
    · have hMem2 : ("--" ++ p) ∈ rest := by
        rcases List.mem_cons.mp hMem with hx | hx
        · exact absurd hx.symm harg
        · exact hx
      exact ih st' hMem2 h
  | case4 st arg st2 heq ih =>
    intro st' hMem h
    obtain ⟨v, hv, -, -⟩ := parseStep_consumed heq
    simp at hv
  | case5 st arg st2 nextArg rest2 heq ih =>
    intro st' hMem h
    by_cases harg : arg = "--" ++ p
    · subst harg
      rw [parseStep_preset_eq p hp] at heq
      injection heq with h'
      injection h' with h1 h2
      exact absurd h2.symm (by simp)
    · rw [parseArgs_cons_ok_true heq] at h
      obtain ⟨v, hv, -, hdash⟩ := parseStep_consumed heq
      have hvnext : v = nextArg := by
        simp only [List.head?_cons, Option.some.injEq] at hv
        exact hv.symm
      rw [hvnext] at hdash
      have hMem2 : ("--" ++ p) ∈ rest2 := by
        rcases List.mem_cons.mp hMem with hx | hx
        · exact absurd hx.symm harg
        · rcases List.mem_cons.mp hx with hy | hy
          · have : jsStartsWith ("--" ++ p) ("-") = true := by
              unfold jsStartsWith
              rw [String.data_append]
              rfl
            rw [hy] at this
            rw [this] at hdash
            cases hdash
          · exact hy
      exact ih st' hMem2 h

/-- Two distinct elements force a list length above one. -/
theorem one_lt_length_of_two_mem {l : List String} {p q : String}
    (hp : p ∈ l) (hq : q ∈ l) (hne : p ≠ q) : 1 < l.length := by
  cases l with
  | nil => exact absurd hp (List.not_mem_nil _)
  | cons a t =>
    cases t with
    | nil =>
      simp only [List.mem_singleton] at hp hq
      exact absurd (hp.trans hq.symm) hne
    | cons b u =>
      simp only [List.length_cons]
      omega

/-- With two distinct preset flags recorded, the post-loop validation fails
on its very first check. -/
theorem finalize_two_presets (st : ParseState) (p q : String)
    (hp : p ∈ presetFlagNames) (hq : q ∈ presetFlagNames) (hne : p ≠ q)
    (hpf : p ∈ st.flags) (hqf : q ∈ st.flags) :
    ∃ e, finalizeCliOptions st = Except.error e := by
  have hlen : 1 < (presetFlagNames.filter (fun f => st.flags.contains f)).length := by
    apply one_lt_length_of_two_mem (p := p) (q := q) _ _ hne
    · rw [List.mem_filter]
      exact ⟨hp, by rw [List.contains, List.elem_iff]; exact hpf⟩
    · rw [List.mem_filter]
      exact ⟨hq, by rw [List.contains, List.elem_iff]; exact hqf⟩
  refine ⟨("Please provide only one preset flag (e.g., --angular)."), ?_⟩
  simp only [finalizeCliOptions]
  rw [if_pos hlen]

/-- C2: an argument list containing both members of a mutually exclusive
pair — `--docker`/`--no-docker`, `--db`/`--no-db`, `--quarkus`/`--spring-boot`,
or two distinct preset flags — in either order makes `parseCliOptions` fail.
In the script this parsing happens in the constructor, before `run` and hence
before any file or directory is created, and the `console.error` +
`process.exit(1)` modelled by `Except.error` terminates the process. -/
theorem conflicting_flags_abort (args : List String)
    (h : ("--docker" ∈ args ∧ "--no-docker" ∈ args)
      ∨ ("--db" ∈ args ∧ "--no-db" ∈ args)
      ∨ ("--quarkus" ∈ args ∧ "--spring-boot" ∈ args)
      ∨ (∃ p q, p ∈ presetFlagNames ∧ q ∈ presetFlagNames ∧ p ≠ q
          ∧ ("--" ++ p) ∈ args ∧ ("--" ++ q) ∈ args)) :
    ∃ e, parseCliOptions args = Except.error e := by
  unfold parseCliOptions
  rcases h with ⟨h1, h2⟩ | ⟨h1, h2⟩ | ⟨h1, h2⟩ | ⟨p, q, hp, hq, hne, h1, h2⟩
  · obtain ⟨e, he⟩ := parseArgs_docker_pair ParseState.initial args h1 h2
    rw [he]
    exact ⟨e, rfl⟩
  · obtain ⟨e, he⟩ := parseArgs_db_pair ParseState.initial args h1 h2
    rw [he]
    exact ⟨e, rfl⟩
  · obtain ⟨e, he⟩ := parseArgs_java_pair ParseState.initial args h1 h2
    rw [he]
    exact ⟨e, rfl⟩
  · cases hres : parseArgs ParseState.initial args with
    | error e => exact ⟨e, rfl⟩
    | ok st =>
      exact finalize_two_presets st p q hp hq hne
        (parseArgs_preset_flag p hp _ _ _ h1 hres)
        (parseArgs_preset_flag q hq _ _ _ h2 hres)

/-- Witness for C2 on a concrete conflicting argument list. -/
theorem conflicting_flags_abort_witness :
    (∃ e, parseCliOptions ["--docker", "--no-docker"] = Except.error e)
      ∧ parseCliOptions ["--docker", "--no-docker"]
          = Except.error ("Use only one of --docker or --no-docker.") :=
  ⟨conflicting_flags_abort (["--docker", "--no-docker"]) (Or.inl ⟨by decide, by decide⟩), rfl⟩

/-- C7: for every fixed option list of the wizard and every valid 1-based
index `n`, the numeric reply `toString n` and the literal option text at
position `n` normalize to the same resolved answer, namely that option text;
a reply whose parsed integer (if any) is not a valid 1-based index is
returned unchanged by `normalizeOptionAnswer`; an all-whitespace reply
resolves to the (truthy) default at the `ask` stage; and a non-index reply
passed through `ask` comes out trimmed but otherwise unchanged. -/
theorem prompt_option_contract :
    (∀ opts ∈ wizardOptionLists, ∀ n, 1 ≤ n → n ≤ opts.length →
      normalizeOptionAnswer (toString n) opts = opts.getD (n - 1) ("")
      ∧ normalizeOptionAnswer (opts.getD (n - 1) ("")) opts = opts.getD (n - 1) (""))
    ∧ (∀ answer : String, ∀ opts : List String,
        (∀ n : Int, jsParseInt answer = some n → ¬(1 ≤ n ∧ n ≤ opts.length)) →
        normalizeOptionAnswer answer opts = answer)
    ∧ (∀ raw dflt : String, jsTrim raw = "" → dflt ≠ "" → ask raw dflt = dflt)
    ∧ (∀ raw dflt : String, ∀ opts : List String, jsTrim raw ≠ "" →
        (∀ n : Int, jsParseInt (jsTrim raw) = some n → ¬(1 ≤ n ∧ n ≤ opts.length)) →
        normalizeOptionAnswer (ask raw dflt) opts = jsTrim raw) := by
  refine ⟨by decide, ?_, ?_, ?_⟩
  · intro answer opts hbad
    unfold normalizeOptionAnswer
    cases hp : jsParseInt answer with
    | none => rfl
    | some n =>
      have hno := hbad n hp
      simp only
      rw [if_neg]
      intro ⟨hlo, hhi⟩
      exact hno ⟨by omega, by omega⟩
  · intro raw dflt hraw hd
    unfold ask
    rw [if_pos ⟨hraw, hd⟩]
  · intro raw dflt opts hraw hbad
    have hask : ask raw dflt = jsTrim raw := by
      unfold ask
      rw [if_neg]
      intro ⟨h1, _⟩
      exact hraw h1
    rw [hask]
    unfold normalizeOptionAnswer
    cases hp : jsParseInt (jsTrim raw) with
    | none => rfl
    | some n =>
      have hno := hbad n hp
      simp only
      rw [if_neg]
      intro ⟨hlo, hhi⟩
      exact hno ⟨by omega, by omega⟩

/-- Witness for C7 at concrete inputs: numeric "2" and literal "CLI tool"
resolve alike on the project-type list, "hello" passes through unchanged,
whitespace resolves to the default, and "  hello  " comes out trimmed. -/
theorem prompt_option_contract_witness :
    normalizeOptionAnswer ("2") projectTypes = "CLI tool"
    ∧ normalizeOptionAnswer ("CLI tool") projectTypes = "CLI tool"
    ∧ normalizeOptionAnswer ("hello") projectTypes = "hello"
    ∧ ask ("   ") ("Web app") = "Web app"
    ∧ normalizeOptionAnswer (ask ("  hello  ") ("Web app")) projectTypes = "hello" := by
  obtain ⟨h1, h2, h3, h4⟩ := prompt_option_contract
  have ha := h1 projectTypes (by decide) 2 (by decide) (by decide)
  refine ⟨?_, ?_, ?_, ?_, ?_⟩
  · exact ha.1
  · exact ha.2
  · exact h2 ("hello") projectTypes (by decide)
  · exact h3 ("   ") ("Web app") (by decide) (by decide)
  · exact h4 ("  hello  ") ("Web app") projectTypes (by decide) (by decide)

end Wizard
